import Mathlib

/-!
EthernetClientSecure: a shallow embedding of `src/EthernetClientSecure.cpp`.

The client is a record of the C++ members; every member function becomes a
function from the client (and its arguments) to its return value and the
client afterwards.  The TLS engine (`ssl_client.h`) and the socket layer are
outside the file: their entry points are the fields of `Engine`, which act on
an engine-owned state of an arbitrary type.  Every engine call is appended,
with its arguments and its `int` result, to the client's `trace`.

Conventions.
* A `const char *` is an `Option String`: `none` is `NULL`.
* A `uint8_t *` is an `Option (Nat → Nat)`: `none` is `NULL`, `some b` is the
  memory from the pointer on, `b i` being the cell `buf[i]`.
* A C++ `int` is an `Int`; the sum of two `int`s is taken by `addInt32`, the
  32-bit two's-complement sum.  A `size_t` is a `Nat`.
-/

namespace EthernetClientSecure

/-- The two members of `sslclient_context` that the client reads and writes. -/
structure sslclient_context where
  socket : Int
  handshake_timeout : Nat
deriving DecidableEq, Repr

/-- One call into the engine or the socket layer, with its arguments and,
where it has one, its `int` result.  `socket` of `start_ssl_client` is the
descriptor in the session context when the handshake returns; `offset` of
`get_ssl_receive` is the distance of the pointer passed to the engine from the
caller's `buf`. -/
inductive EngineCall where
  | ssl_init
  | start_ssl_client (host : String) (port : Nat)
      (rootCABuff cli_cert cli_key pskIdent psKey : Option String) (ret : Int) (socket : Int)
  | stop_ssl_socket (rootCABuff cli_cert cli_key : Option String)
  | close (fd : Int)
  | data_to_read (res : Int)
  | get_ssl_receive (offset : Nat) (length : Nat) (res : Int)
  | send_ssl_data (len : Nat) (res : Int)
  | verify_ssl_fingerprint (fp domain_name : Option String) (res : Bool)
deriving DecidableEq, Repr

/-- The engine boundary: the functions of `ssl_client.h` and lwip's `close`,
as transitions of an engine-owned state `ε`.  The handshake receives the
session context and returns it as it leaves it (it opens the descriptor).  The
byte-count query, receive, send and teardown act on the engine's own state and
return their `int` result; `get_ssl_receive` also returns the bytes it stored
from the pointer it was given on; the fingerprint comparison returns its
`bool`. -/
structure Engine (ε : Type) where
  ssl_init : ε → ε
  start_ssl_client : ε → sslclient_context → String → Nat →
    Option String → Option String → Option String → Option String → Option String →
    Int × sslclient_context × ε
  stop_ssl_socket : ε → sslclient_context →
    Option String → Option String → Option String → ε
  close : ε → Int → ε
  data_to_read : ε → sslclient_context → Int × ε
  get_ssl_receive : ε → sslclient_context → Nat → Int × List Nat × ε
  send_ssl_data : ε → sslclient_context → Option (Nat → Nat) → Nat → Int × ε
  verify_ssl_fingerprint : ε → sslclient_context → Option String → Option String → Bool × ε

/-- The members of `EthernetClientSecure`, the engine's state and the trace of
engine calls made so far. -/
structure Client (ε : Type) where
  sslclient : sslclient_context
  _connected : Bool
  _peek : Int
  _lastError : Int
  _CA_cert : Option String
  _cert : Option String
  _private_key : Option String
  _pskIdent : Option String
  _psKey : Option String
  engine : ε
  trace : List EngineCall

variable {ε : Type}

/-- The bytes `data` stored from cell `off` of `b` on. -/
def store (b : Nat → Nat) (off : Nat) (data : List Nat) : Nat → Nat :=
  fun i => if off ≤ i ∧ i < off + data.length then data.getD (i - off) 0 else b i

/-- Source: `EthernetClientSecure::stop()`. -/
def stop (E : Engine ε) (c : Client ε) : Client ε :=
  let c1 : Client ε :=
    if c.sslclient.socket ≥ 0 then
      { c with
        engine := E.close c.engine c.sslclient.socket
        trace := c.trace ++ [EngineCall.close c.sslclient.socket]
        sslclient := { c.sslclient with socket := -1 }
        _connected := false
        _peek := -1 }
    else c
  { c1 with
    engine := E.stop_ssl_socket c1.engine c1.sslclient c1._CA_cert c1._cert c1._private_key
    trace := c1.trace ++ [EngineCall.stop_ssl_socket c1._CA_cert c1._cert c1._private_key] }

/-- Source: `connect(const char *host, uint16_t port, const char *_CA_cert,
const char *_cert, const char *_private_key)`: the parameters hide the members
of the same names. -/
def connectCert (E : Engine ε) (c : Client ε) (host : String) (port : Nat)
    (CA_cert cert private_key : Option String) : Int × Client ε :=
  let r := E.start_ssl_client c.engine c.sslclient host port CA_cert cert private_key none none
  let ret := r.1
  let c1 : Client ε :=
    { c with
      sslclient := r.2.1
      engine := r.2.2
      trace := c.trace ++
        [EngineCall.start_ssl_client host port CA_cert cert private_key none none ret
          r.2.1.socket]
      _lastError := ret }
  if ret < 0 then (0, stop E c1)
  else (1, { c1 with _connected := true })

/-- Source: `connect(const char *host, uint16_t port, const char *pskIdent,
const char *psKey)`: the body passes the members `_pskIdent`, `_psKey` to the
engine, not its parameters. -/
def connectPSK (E : Engine ε) (c : Client ε) (host : String) (port : Nat)
    (pskIdent psKey : Option String) : Int × Client ε :=
  let r := E.start_ssl_client c.engine c.sslclient host port none none none c._pskIdent c._psKey
  let ret := r.1
  let c1 : Client ε :=
    { c with
      sslclient := r.2.1
      engine := r.2.2
      trace := c.trace ++
        [EngineCall.start_ssl_client host port none none none c._pskIdent c._psKey ret
          r.2.1.socket]
      _lastError := ret }
  if ret < 0 then (0, stop E c1)
  else (1, { c1 with _connected := true })

/-- Source: `connect(const char *host, uint16_t port)`. -/
def connect (E : Engine ε) (c : Client ε) (host : String) (port : Nat) : Int × Client ε :=
  if c._pskIdent.isSome && c._psKey.isSome then
    connectPSK E c host port c._pskIdent c._psKey
  else
    connectCert E c host port c._CA_cert c._cert c._private_key

/-- Arduino core's `IPAddress` (outside the repository): four octets, of which
only the dotted text `toString()` is used here. -/
structure IPAddress where
  o1 : Nat
  o2 : Nat
  o3 : Nat
  o4 : Nat
deriving DecidableEq, Repr

/-- Arduino core's `IPAddress::toString()`: the dotted text of the address. -/
def IPAddress.toString (ip : IPAddress) : String :=
  Nat.repr ip.o1 ++ "." ++ Nat.repr ip.o2 ++ "." ++ Nat.repr ip.o3 ++ "." ++ Nat.repr ip.o4

/-- Source: `connect(IPAddress ip, uint16_t port, const char *_CA_cert,
const char *_cert, const char *_private_key)`. -/
def connectIPCert (E : Engine ε) (c : Client ε) (ip : IPAddress) (port : Nat)
    (CA_cert cert private_key : Option String) : Int × Client ε :=
  connectCert E c ip.toString port CA_cert cert private_key

/-- Source: `connect(IPAddress ip, uint16_t port, const char *pskIdent,
const char *psKey)`: forwards the members `_pskIdent`, `_psKey`. -/
def connectIPPSK (E : Engine ε) (c : Client ε) (ip : IPAddress) (port : Nat)
    (pskIdent psKey : Option String) : Int × Client ε :=
  connectPSK E c ip.toString port c._pskIdent c._psKey

/-- Source: `connect(IPAddress ip, uint16_t port)`. -/
def connectIP (E : Engine ε) (c : Client ε) (ip : IPAddress) (port : Nat) : Int × Client ε :=
  if c._pskIdent.isSome && c._psKey.isSome then
    connectIPPSK E c ip port c._pskIdent c._psKey
  else
    connectIPCert E c ip port c._CA_cert c._cert c._private_key

/-- The value of an integer as a 32-bit two's-complement `int`. -/
def wrapInt32 (x : Int) : Int :=
  (x + 2147483648) % 4294967296 - 2147483648

/-- The sum of two `int`s as the 32-bit machine computes it: the wrapped sum
of two values in the range of `int`, from -2147483648 to 2147483647.  A value
outside that range, which no `int` holds, is added as it is. -/
def addInt32 (a b : Int) : Int :=
  if (-2147483648 ≤ a ∧ a ≤ 2147483647) ∧ (-2147483648 ≤ b ∧ b ≤ 2147483647) then
    wrapInt32 (a + b)
  else a + b

/-- Source: `EthernetClientSecure::available()`. -/
def available (E : Engine ε) (c : Client ε) : Int × Client ε :=
  let peeked : Int := if c._peek ≥ 0 then 1 else 0
  if !c._connected then (peeked, c)
  else
    let r := E.data_to_read c.engine c.sslclient
    let res := r.1
    let c1 : Client ε :=
      { c with engine := r.2, trace := c.trace ++ [EngineCall.data_to_read res] }
    if res < 0 then (if peeked ≠ 0 then peeked else res, stop E c1)
    else (addInt32 res peeked, c1)

/-- The tail of `read(uint8_t *buf, size_t size)` from the call of
`get_ssl_receive` on: `b` is the caller's buffer, `off` how far `buf` has been
advanced, `size` the remaining size and `peeked` the local of that name. -/
def readEngine (E : Engine ε) (c : Client ε) (b : Nat → Nat) (off size : Nat)
    (peeked : Int) : Int × Option (Nat → Nat) × Client ε :=
  let r := E.get_ssl_receive c.engine c.sslclient size
  let res := r.1
  let b1 := store b off r.2.1
  let c1 : Client ε :=
    { c with engine := r.2.2, trace := c.trace ++ [EngineCall.get_ssl_receive off size res] }
  if res < 0 then (if peeked ≠ 0 then peeked else res, some b1, stop E c1)
  else (addInt32 res peeked, some b1, c1)

/-- Source: `EthernetClientSecure::read(uint8_t *buf, size_t size)`; returns the
result, the buffer afterwards and the client afterwards.  With `buf` null the
test `(!buf && size) || avail <= 0` leaves only `size = 0` with `avail > 0`,
which returns at `if(!size)`. -/
def read (E : Engine ε) (c : Client ε) (buf : Option (Nat → Nat)) (size : Nat) :
    Int × Option (Nat → Nat) × Client ε :=
  let a := available E c
  let avail := a.1
  let c1 := a.2
  match buf with
  | none => if size ≠ 0 ∨ avail ≤ 0 then (-1, none, c1) else (0, none, c1)
  | some b =>
    if avail ≤ 0 then (-1, some b, c1)
    else if size = 0 then (0, some b, c1)
    else if c1._peek ≥ 0 then
      let b1 := Function.update b 0 (c1._peek % 256).toNat
      let c2 : Client ε := { c1 with _peek := -1 }
      if size - 1 = 0 ∨ avail - 1 = 0 then (1, some b1, c2)
      else readEngine E c2 b1 1 (size - 1) 1
    else readEngine E c1 b 0 size 0

/-- Source: `EthernetClientSecure::read()`: `data` starts as `(uint8_t)-1 = 255`. -/
def readByte (E : Engine ε) (c : Client ε) : Int × Client ε :=
  let data : Nat → Nat := fun _ => 255
  let r := read E c (some data) 1
  if r.1 < 0 then (r.1, r.2.2)
  else ((((r.2.1.getD data) 0 % 256 : Nat) : Int), r.2.2)

/-- Arduino core's `Stream::timedRead()` (outside the repository): a do-while
loop that calls `read()` until it returns a value `>= 0` or the stream timeout
has elapsed.  `polls` is the number of times the clock test
`millis() - _startMillis < _timeout` still holds. -/
def timedRead (E : Engine ε) : Nat → Client ε → Int × Client ε
  | 0, c =>
    let r := readByte E c
    if r.1 ≥ 0 then r else (-1, r.2)
  | n + 1, c =>
    let r := readByte E c
    if r.1 ≥ 0 then r else timedRead E n r.2

/-- Source: `EthernetClientSecure::peek()`. -/
def peek (E : Engine ε) (polls : Nat) (c : Client ε) : Int × Client ε :=
  if c._peek ≥ 0 then (c._peek, c)
  else
    let r := timedRead E polls c
    (r.1, { r.2 with _peek := r.1 })

/-- Source: `EthernetClientSecure::write(const uint8_t *buf, size_t size)`. -/
def write (E : Engine ε) (c : Client ε) (buf : Option (Nat → Nat)) (size : Nat) :
    Nat × Client ε :=
  if !c._connected then (0, c)
  else
    let r := E.send_ssl_data c.engine c.sslclient buf size
    let res := r.1
    let c1 : Client ε :=
      { c with engine := r.2, trace := c.trace ++ [EngineCall.send_ssl_data size res] }
    if res < 0 then (0, stop E c1)
    else (res.toNat, c1)

/-- Source: `EthernetClientSecure::write(uint8_t data)`. -/
def writeByte (E : Engine ε) (c : Client ε) (data : Nat) : Nat × Client ε :=
  write E c (some (fun _ => data % 256)) 1

/-- Source: `EthernetClientSecure::connected()`. -/
def connected (E : Engine ε) (c : Client ε) : Bool × Client ε :=
  let r := read E c (some (fun _ => 0)) 0
  (r.2.2._connected, r.2.2)

/-- Source: `setCACert`. -/
def setCACert (c : Client ε) (rootCA : Option String) : Client ε :=
  { c with _CA_cert := rootCA }

/-- Source: `setCertificate`. -/
def setCertificate (c : Client ε) (client_ca : Option String) : Client ε :=
  { c with _cert := client_ca }

/-- Source: `setPrivateKey`. -/
def setPrivateKey (c : Client ε) (private_key : Option String) : Client ε :=
  { c with _private_key := private_key }

/-- Source: `setPreSharedKey`. -/
def setPreSharedKey (c : Client ε) (pskIdent psKey : Option String) : Client ε :=
  { c with _pskIdent := pskIdent, _psKey := psKey }

/-- The calls made between the client `c` and the later client `c1`. -/
def callsSince (c c1 : Client ε) : List EngineCall :=
  c1.trace.drop c.trace.length

/-- Whether a call is the handshake entry point. -/
def EngineCall.isHandshake : EngineCall → Bool
  | EngineCall.start_ssl_client _ _ _ _ _ _ _ _ _ => true
  | _ => false

/-- Whether a call is the engine's bulk read. -/
def EngineCall.isReceive : EngineCall → Bool
  | EngineCall.get_ssl_receive _ _ _ => true
  | _ => false

/-- Whether a handshake call carries a PSK argument together with a CA,
certificate or key argument. -/
def EngineCall.mixesModes : EngineCall → Bool
  | EngineCall.start_ssl_client _ _ ca cert key ident psk _ _ =>
    (ident.isSome || psk.isSome) && (ca.isSome || cert.isSome || key.isSome)
  | _ => false

/-- The result of an engine I/O call (byte count, receive, send), if the call
is one. -/
def EngineCall.ioResult : EngineCall → Option Int
  | EngineCall.data_to_read res => some res
  | EngineCall.get_ssl_receive _ _ res => some res
  | EngineCall.send_ssl_data _ res => some res
  | _ => none

/-- The result of each handshake call in a list of calls, paired with the
descriptor the handshake left. -/
def handshakeResults : List EngineCall → List (Int × Int)
  | [] => []
  | EngineCall.start_ssl_client _ _ _ _ _ _ _ ret sock :: t => (ret, sock) :: handshakeResults t
  | _ :: t => handshakeResults t

/-- Source: `EthernetClientSecure::EthernetClientSecure()`, run on an engine state `e`.
The constructor body does not assign `_peek` and `_lastError`: their initial
values come from the class declaration, which is not among the sources, and are
the parameters `peek0` and `lastError0` here. -/
def construct (E : Engine ε) (e : ε) (peek0 lastError0 : Int) : Client ε :=
  { _connected := false
    sslclient := { socket := 443, handshake_timeout := 120000 }
    engine := E.ssl_init e
    trace := [EngineCall.ssl_init]
    _CA_cert := none
    _cert := none
    _private_key := none
    _pskIdent := none
    _psKey := none
    _peek := peek0
    _lastError := lastError0 }

/-- Source: `EthernetClientSecure::EthernetClientSecure(int sock)`; `peek0` and
`lastError0` as in `construct`. -/
def constructSock (E : Engine ε) (e : ε) (sock : Int) (peek0 lastError0 : Int) : Client ε :=
  { _connected := if sock ≥ 0 then true else false
    sslclient := { socket := sock, handshake_timeout := 120000 }
    engine := E.ssl_init e
    trace := [EngineCall.ssl_init]
    _CA_cert := none
    _cert := none
    _private_key := none
    _pskIdent := none
    _psKey := none
    _peek := peek0
    _lastError := lastError0 }

/-- Source: `EthernetClientSecure::operator=`.  The reference `other` is read
after `stop()`: it is `some o` for another object, with members `o`, and `none`
when it is the receiver itself, whose members are then those left by
`stop()`. -/
def assign (E : Engine ε) (c : Client ε) (other : Option (Client ε)) : Client ε :=
  let c1 := stop E c
  let o := match other with
    | some o => o
    | none => c1
  { c1 with
    sslclient := { c1.sslclient with socket := o.sslclient.socket }
    _connected := o._connected }

/-- Source: `setHandshakeTimeout(unsigned long handshake_timeout)`: the product is
taken in `unsigned long`, 32 bits wide on the ESP32. -/
def setHandshakeTimeout (c : Client ε) (handshake_timeout : Nat) : Client ε :=
  { c with
    sslclient := { c.sslclient with handshake_timeout := (handshake_timeout * 1000) % 2 ^ 32 } }

/-- An engine with fixed answers, for evaluating the client on concrete runs:
the handshake returns `hsRet` and leaves the descriptor `hsSocket`, the byte
count is `avail`, the bulk read returns `recv` after storing `recvData`, and
send returns `sendRes`. -/
def fixedEngine (hsRet hsSocket avail recv : Int) (recvData : List Nat) (sendRes : Int) :
    Engine Unit where
  ssl_init := fun e => e
  start_ssl_client := fun e ctx _ _ _ _ _ _ _ => (hsRet, { ctx with socket := hsSocket }, e)
  stop_ssl_socket := fun e _ _ _ _ => e
  close := fun e _ => e
  data_to_read := fun e _ => (avail, e)
  get_ssl_receive := fun e _ _ => (recv, recvData, e)
  send_ssl_data := fun e _ _ _ => (sendRes, e)
  verify_ssl_fingerprint := fun e _ _ _ => (false, e)

/-- The engine of the spec scenario: the handshake succeeds with code 0 on
descriptor 7, 10 bytes are readable, the bulk read fails with -2. -/
def scenarioEngine : Engine Unit := fixedEngine 0 7 10 (-2) [] 0

/-- An engine whose handshake fails with -1 before a descriptor is open
(descriptor left at -1) and whose I/O calls fail with -1. -/
def refusingEngine : Engine Unit := fixedEngine (-1) (-1) (-1) (-1) [] (-1)

/-- A fresh client (no byte buffered, no error recorded) with PSK identity
"id1" and key "deadbeef" configured. -/
def pskClient : Client Unit :=
  setPreSharedKey (construct scenarioEngine () (-1) 0) (some "id1") (some "deadbeef")

/-- The client `pskClient` with a CA certificate configured as well. -/
def pskAndCaClient : Client Unit := setCACert pskClient (some "ca-pem")

/-- A fresh client with a PSK pair stored by `setPreSharedKey`. -/
def storedPskClient : Client Unit :=
  setPreSharedKey (construct scenarioEngine () (-1) 0) (some "stored-id") (some "stored-key")

/-- A client constructed around the valid descriptor 5 (no byte buffered, no
error recorded). -/
def wrappedClient : Client Unit := constructSock scenarioEngine () 5 (-1) 0

/-- The client after `connect` on `wrappedClient` with the refusing engine:
the handshake failed and left the descriptor at -1, and the connected flag set
by the constructor is still set. -/
def staleClient : Client Unit :=
  (connectCert refusingEngine wrappedClient "10.0.0.5" 443 none none none).2

/-- An engine on an idle, healthy session: the handshake succeeds on
descriptor 7 and no byte is readable (count 0). -/
def idleEngine : Engine Unit := fixedEngine 0 7 0 0 [] 0

/-- A connected client on descriptor 5 with byte 65 in the peek buffer. -/
def peekedClient : Client Unit := { wrappedClient with _peek := 65 }

/-- An engine whose byte count and bulk read both answer 2147483647, the
largest `int`. -/
def saturatedEngine : Engine Unit := fixedEngine 0 7 2147483647 2147483647 [] 0

/-- An engine with 10 bytes readable whose bulk read answers 2147483647, the
largest `int`. -/
def overlongEngine : Engine Unit := fixedEngine 0 7 10 2147483647 [] 0

/-- Source: `EthernetClientSecure::verify(const char* fp, const char* domain_name)`;
`sslclient` is set by both constructors and is never null. -/
def verify (E : Engine ε) (c : Client ε) (fp domain_name : Option String) : Bool × Client ε :=
  let r := E.verify_ssl_fingerprint c.engine c.sslclient fp domain_name
  (r.1, { c with
    engine := r.2
    trace := c.trace ++ [EngineCall.verify_ssl_fingerprint fp domain_name r.1] })

/-- The C library's `snprintf(buf, size, "%s", text)`: nothing is written for
`size = 0`, otherwise at most `size - 1` bytes of `text` and a terminating 0. -/
def snprintf (buf : Option (Nat → Nat)) (size : Nat) (text : List Nat) : Option (Nat → Nat) :=
  match buf with
  | none => none
  | some b => if size = 0 then some b else some (store b 0 (text.take (size - 1) ++ [0]))

/-- Source: `EthernetClientSecure::lastError(char *buf, const size_t size)`.
`mbedtls_strerror` is the engine's translation of a code into the bytes of its
message, of which the 100-byte `error_buf` keeps at most 99. -/
def lastError (mbedtls_strerror : Int → List Nat) (c : Client ε) (buf : Option (Nat → Nat))
    (size : Nat) : Int × Option (Nat → Nat) :=
  if c._lastError = 0 then (0, buf)
  else
    let error_buf := (mbedtls_strerror c._lastError).take 99
    (c._lastError, snprintf buf size error_buf)

/-- The bytes of a buffer read as the text a `const char *` to it refers to. -/
def bytesToString (bytes : List Nat) : String :=
  String.mk (bytes.map Char.ofNat)

/-- The text a `const char *` to a buffer holding `bytes` refers to.  The
loaders do not terminate the buffer, so the text runs to the first 0, in the
buffer or in `after`, the memory that follows it. -/
def cString (bytes after : List Nat) : String :=
  bytesToString ((bytes ++ after).takeWhile (fun x => x != 0))

/-- The outcome of `_streamLoad`: `dest` is the function's `static char *dest`
afterwards, which is also the pointer it returns (`none` is `nullptr`, `some
bytes` a live buffer with that content), and `freed` lists the buffers the call
has released. -/
structure StreamLoad where
  dest : Option (List Nat)
  freed : List (List Nat)
deriving DecidableEq, Repr

/-- Source: `EthernetClientSecure::_streamLoad(Stream& stream, size_t size)`.
`dest` is the static pointer on entry, `stream` the bytes the source delivers to
`readBytes` before its timeout, and `mallocOk` whether `malloc(size)` returns a
buffer. -/
def _streamLoad (dest : Option (List Nat)) (stream : List Nat) (size : Nat)
    (mallocOk : Bool) : StreamLoad :=
  let freed0 : List (List Nat) := match dest with
    | some old => [old]
    | none => []
  if !mallocOk then { dest := none, freed := freed0 }
  else
    let got := stream.take size
    if size ≠ got.length then { dest := none, freed := freed0 ++ [got] }
    else { dest := some got, freed := freed0 }

/-- Source: `EthernetClientSecure::loadCACert(Stream& stream, size_t size)`; returns
the result, the client and the loader's static slot afterwards.  `after` is the
memory that follows the allocated buffer. -/
def loadCACert (c : Client ε) (dest : Option (List Nat)) (stream : List Nat) (size : Nat)
    (mallocOk : Bool) (after : List Nat) : Bool × Client ε × StreamLoad :=
  let d := _streamLoad dest stream size mallocOk
  match d.dest with
  | some bytes => (true, setCACert c (some (cString bytes after)), d)
  | none => (false, c, d)

/-- Source: `EthernetClientSecure::loadCertificate(Stream& stream, size_t size)`. -/
def loadCertificate (c : Client ε) (dest : Option (List Nat)) (stream : List Nat) (size : Nat)
    (mallocOk : Bool) (after : List Nat) : Bool × Client ε × StreamLoad :=
  let d := _streamLoad dest stream size mallocOk
  match d.dest with
  | some bytes => (true, setCertificate c (some (cString bytes after)), d)
  | none => (false, c, d)

/-- Source: `EthernetClientSecure::loadPrivateKey(Stream& stream, size_t size)`. -/
def loadPrivateKey (c : Client ε) (dest : Option (List Nat)) (stream : List Nat) (size : Nat)
    (mallocOk : Bool) (after : List Nat) : Bool × Client ε × StreamLoad :=
  let d := _streamLoad dest stream size mallocOk
  match d.dest with
  | some bytes => (true, setPrivateKey c (some (cString bytes after)), d)
  | none => (false, c, d)

/-- Whether a call is the engine's session teardown. -/
def EngineCall.isTeardown : EngineCall → Bool
  | EngineCall.stop_ssl_socket _ _ _ => true
  | _ => false

/-- One call of a public member function other than the constructors and the
assignment, with its arguments.  The loaders carry the state of the static
slot of `_streamLoad` and the environment of that call. -/
inductive Op where
  | connect (host : String) (port : Nat)
  | connectCert (host : String) (port : Nat) (CA_cert cert private_key : Option String)
  | connectPSK (host : String) (port : Nat) (pskIdent psKey : Option String)
  | connectIP (ip : IPAddress) (port : Nat)
  | connectIPCert (ip : IPAddress) (port : Nat) (CA_cert cert private_key : Option String)
  | connectIPPSK (ip : IPAddress) (port : Nat) (pskIdent psKey : Option String)
  | stop
  | available
  | peek (polls : Nat)
  | readByte
  | read (buf : Option (Nat → Nat)) (size : Nat)
  | write (buf : Option (Nat → Nat)) (size : Nat)
  | writeByte (data : Nat)
  | connected
  | setCACert (rootCA : Option String)
  | setCertificate (client_ca : Option String)
  | setPrivateKey (private_key : Option String)
  | setPreSharedKey (pskIdent psKey : Option String)
  | verify (fp domain_name : Option String)
  | lastError (buf : Option (Nat → Nat)) (size : Nat)
  | setHandshakeTimeout (handshake_timeout : Nat)
  | loadCACert (dest : Option (List Nat)) (stream : List Nat) (size : Nat) (mallocOk : Bool)
      (after : List Nat)
  | loadCertificate (dest : Option (List Nat)) (stream : List Nat) (size : Nat)
      (mallocOk : Bool) (after : List Nat)
  | loadPrivateKey (dest : Option (List Nat)) (stream : List Nat) (size : Nat)
      (mallocOk : Bool) (after : List Nat)

/-- Whether an operation is one of the connect overloads. -/
def Op.isConnect : Op → Bool
  | Op.connect _ _ => true
  | Op.connectCert _ _ _ _ _ => true
  | Op.connectPSK _ _ _ _ => true
  | Op.connectIP _ _ => true
  | Op.connectIPCert _ _ _ _ _ => true
  | Op.connectIPPSK _ _ _ _ => true
  | _ => false

/-- The client after one operation. -/
def step (E : Engine ε) (c : Client ε) : Op → Client ε
  | Op.connect host port => (connect E c host port).2
  | Op.connectCert host port ca cert key => (connectCert E c host port ca cert key).2
  | Op.connectPSK host port ident psk => (connectPSK E c host port ident psk).2
  | Op.connectIP ip port => (connectIP E c ip port).2
  | Op.connectIPCert ip port ca cert key => (connectIPCert E c ip port ca cert key).2
  | Op.connectIPPSK ip port ident psk => (connectIPPSK E c ip port ident psk).2
  | Op.stop => stop E c
  | Op.available => (available E c).2
  | Op.peek polls => (peek E polls c).2
  | Op.readByte => (readByte E c).2
  | Op.read buf size => (read E c buf size).2.2
  | Op.write buf size => (write E c buf size).2
  | Op.writeByte data => (writeByte E c data).2
  | Op.connected => (connected E c).2
  | Op.setCACert rootCA => setCACert c rootCA
  | Op.setCertificate client_ca => setCertificate c client_ca
  | Op.setPrivateKey private_key => setPrivateKey c private_key
  | Op.setPreSharedKey pskIdent psKey => setPreSharedKey c pskIdent psKey
  | Op.verify fp domain_name => (verify E c fp domain_name).2
  | Op.lastError _ _ => c
  | Op.setHandshakeTimeout t => setHandshakeTimeout c t
  | Op.loadCACert dest stream size ok after => (loadCACert c dest stream size ok after).2.1
  | Op.loadCertificate dest stream size ok after =>
    (loadCertificate c dest stream size ok after).2.1
  | Op.loadPrivateKey dest stream size ok after =>
    (loadPrivateKey c dest stream size ok after).2.1

/-- The client after a sequence of operations. -/
def run (E : Engine ε) (c : Client ε) (ops : List Op) : Client ε :=
  ops.foldl (step E) c

/-- The engine contract on the handshake: when it returns success (`>= 0`) it
leaves a valid descriptor (`>= 0`) in the session context. -/
def HandshakeLeavesDescriptor (E : Engine ε) : Prop :=
  ∀ (e : ε) (ctx : sslclient_context) (host : String) (port : Nat)
    (a1 a2 a3 a4 a5 : Option String),
    0 ≤ (E.start_ssl_client e ctx host port a1 a2 a3 a4 a5).1 →
      0 ≤ (E.start_ssl_client e ctx host port a1 a2 a3 a4 a5).2.1.socket

/-- The client states reached from a constructor by public operations and
assignments between reached clients, where a connect on a client that is marked
connected is made only if its handshake, should it fail, leaves a valid
descriptor. -/
inductive Reachable (E : Engine ε) : Client ε → Prop where
  | construct (e : ε) (peek0 lastError0 : Int) : Reachable E (construct E e peek0 lastError0)
  | constructSock (e : ε) (sock peek0 lastError0 : Int) :
      Reachable E (constructSock E e sock peek0 lastError0)
  | step (c : Client ε) (o : Op) : Reachable E c →
      (c._connected = true →
        ∀ p ∈ handshakeResults (callsSince c (step E c o)), p.1 < 0 → 0 ≤ p.2) →
      Reachable E (step E c o)
  | assign (c other : Client ε) : Reachable E c → Reachable E other →
      Reachable E (assign E c (some other))
  | assignSelf (c : Client ε) : Reachable E c → Reachable E (assign E c none)

/-- An engine over a stream of unread bytes: the handshake succeeds on
descriptor 7, the byte count is the number of unread bytes, and the bulk read
hands out at most the length it is asked for. -/
def streamEngine : Engine (List Nat) where
  ssl_init := fun e => e
  start_ssl_client := fun e ctx _ _ _ _ _ _ _ => (0, { ctx with socket := 7 }, e)
  stop_ssl_socket := fun e _ _ _ _ => e
  close := fun e _ => e
  data_to_read := fun e _ => ((e.length : Int), e)
  get_ssl_receive := fun e _ len => (((e.take len).length : Int), e.take len, e.drop len)
  send_ssl_data := fun e _ _ len => ((len : Int), e)
  verify_ssl_fingerprint := fun e _ _ _ => (true, e)

/-- A client constructed around descriptor 5 on `streamEngine`, with the bytes
1, 2, 3 unread (no byte buffered, no error recorded). -/
def streamClient : Client (List Nat) := constructSock streamEngine [1, 2, 3] 5 (-1) 0

/-- What teardown and the I/O path preserve from a client `c` to the later
client `c1`: the recorded last-error code, and the property that a client
marked connected has a valid descriptor. -/
def Keeps (c c1 : Client ε) : Prop :=
  c1._lastError = c._lastError ∧
    ((c._connected = true → 0 ≤ c.sslclient.socket) →
      c1._connected = true → 0 ≤ c1.sslclient.socket)

/-- The client and loader slot after `loadCACert` has read the three bytes
"abc" of a source into a fresh owned buffer, which a 0 byte follows in
memory. -/
def loadedOnce : Bool × Client Unit × StreamLoad :=
  loadCACert pskClient none [97, 98, 99] 3 true [0]

/-- The client and loader slot after a second `loadCACert` on `loadedOnce`,
declared 5 bytes long, from a source that delivers only 2 bytes. -/
def loadedTwice : Bool × Client Unit × StreamLoad :=
  loadCACert loadedOnce.2.1 loadedOnce.2.2.dest [120, 121] 5 true [0]

/-! Frame lemmas for `stop` -/

theorem stop_trace (E : Engine ε) (c : Client ε) :
    ∃ tl, (stop E c).trace = c.trace ++ tl ∧
      ∀ e ∈ tl, e.isHandshake = false ∧ e.isReceive = false ∧ e.ioResult = none ∧
        e.mixesModes = false := by
  unfold stop
  by_cases h : c.sslclient.socket ≥ 0
  · refine ⟨[EngineCall.close c.sslclient.socket,
      EngineCall.stop_ssl_socket c._CA_cert c._cert c._private_key], ?_, ?_⟩
    · simp [h]
    · intro e he
      simp at he
      rcases he with rfl | rfl <;> simp [EngineCall.isHandshake, EngineCall.isReceive,
        EngineCall.ioResult, EngineCall.mixesModes]
  · refine ⟨[EngineCall.stop_ssl_socket c._CA_cert c._cert c._private_key], ?_, ?_⟩
    · simp [h]
    · intro e he
      simp at he
      subst he
      simp [EngineCall.isHandshake, EngineCall.isReceive, EngineCall.ioResult,
        EngineCall.mixesModes]

theorem stop_frame (E : Engine ε) (c : Client ε) :
    (stop E c)._lastError = c._lastError ∧ (stop E c)._CA_cert = c._CA_cert ∧
      (stop E c)._cert = c._cert ∧ (stop E c)._private_key = c._private_key ∧
      (stop E c)._pskIdent = c._pskIdent ∧ (stop E c)._psKey = c._psKey ∧
      (stop E c).sslclient.handshake_timeout = c.sslclient.handshake_timeout := by
  unfold stop
  by_cases h : c.sslclient.socket ≥ 0 <;> simp [h]

theorem stop_valid (E : Engine ε) (c : Client ε) (h : 0 ≤ c.sslclient.socket) :
    (stop E c)._connected = false ∧ (stop E c)._peek = -1 ∧
      (stop E c).sslclient.socket = -1 := by
  unfold stop
  simp [h]

theorem stop_invalid (E : Engine ε) (c : Client ε) (h : c.sslclient.socket < 0) :
    (stop E c)._connected = c._connected ∧ (stop E c)._peek = c._peek ∧
      (stop E c).sslclient = c.sslclient := by
  unfold stop
  have h' : ¬ c.sslclient.socket ≥ 0 := not_le.mpr h
  simp [h']

theorem callsSince_append (c c1 : Client ε) (xs : List EngineCall)
    (h : c1.trace = c.trace ++ xs) : callsSince c c1 = xs := by
  unfold callsSince
  rw [h]
  exact List.drop_left _ _

theorem handshakeResults_none (tl : List EngineCall)
    (h : ∀ e ∈ tl, e.isHandshake = false ∧ e.isReceive = false ∧ e.ioResult = none ∧
      e.mixesModes = false) : handshakeResults tl = [] := by
  induction tl with
  | nil => rfl
  | cons a t ih =>
    have ha := (h a (List.mem_cons_self a t)).1
    have ht := ih (fun e he => h e (List.mem_cons_of_mem a he))
    cases a <;> simp_all [handshakeResults, EngineCall.isHandshake]

theorem filter_isHandshake_none (tl : List EngineCall)
    (h : ∀ e ∈ tl, e.isHandshake = false ∧ e.isReceive = false ∧ e.ioResult = none ∧
      e.mixesModes = false) : tl.filter EngineCall.isHandshake = [] := by
  rw [List.filter_eq_nil_iff]
  intro e he
  simp [(h e he).1]

/-- What a handshake overload does, given the engine's answer `hs` to the
handshake call it makes: the calls it adds, the recorded code, the result and
the teardown. -/
theorem connect_core (E : Engine ε) (c : Client ε) (host : String) (port : Nat)
    (a1 a2 a3 a4 a5 : Option String) (hs : Int × sslclient_context × ε)
    (out : Int × Client ε)
    (hout : out =
      if hs.1 < 0 then
        (0, stop E { c with
          sslclient := hs.2.1
          engine := hs.2.2
          trace := c.trace ++
            [EngineCall.start_ssl_client host port a1 a2 a3 a4 a5 hs.1 hs.2.1.socket]
          _lastError := hs.1 })
      else
        (1, { c with
          sslclient := hs.2.1
          engine := hs.2.2
          trace := c.trace ++
            [EngineCall.start_ssl_client host port a1 a2 a3 a4 a5 hs.1 hs.2.1.socket]
          _lastError := hs.1
          _connected := true })) :
    (∃ tl, callsSince c out.2 =
          EngineCall.start_ssl_client host port a1 a2 a3 a4 a5 hs.1 hs.2.1.socket :: tl ∧
        ∀ e ∈ tl, e.isHandshake = false ∧ e.isReceive = false ∧ e.ioResult = none ∧
          e.mixesModes = false) ∧
      out.2._lastError = hs.1 ∧
      (0 ≤ hs.1 → out.1 = 1 ∧ out.2._connected = true) ∧
      (hs.1 < 0 → out.1 = 0) ∧
      (hs.1 < 0 → 0 ≤ hs.2.1.socket →
        out.2._connected = false ∧ out.2._peek = -1 ∧ out.2.sslclient.socket = -1) ∧
      (hs.1 < 0 → hs.2.1.socket < 0 →
        out.2._connected = c._connected ∧ out.2._peek = c._peek) := by
  obtain ⟨ret, ctx, eng⟩ := hs
  simp only at hout ⊢
  by_cases hr : ret < 0
  · have hr' : ¬ 0 ≤ ret := not_le.mpr hr
    simp only [hr, if_true] at hout
    subst hout
    obtain ⟨tl, htl, hno⟩ := stop_trace E
      { c with sslclient := ctx, engine := eng,
               trace := c.trace ++ [EngineCall.start_ssl_client host port a1 a2 a3 a4 a5 ret
                 ctx.socket],
               _lastError := ret }
    refine ⟨⟨tl, ?_, hno⟩, ?_, ?_, ?_, ?_, ?_⟩
    · apply callsSince_append
      simp [htl]
    · simp [(stop_frame E _).1]
    · intro h; exact absurd h hr'
    · intro _; rfl
    · intro _ hs
      exact stop_valid E _ hs
    · intro _ hs
      have := stop_invalid E
        { c with sslclient := ctx, engine := eng,
                 trace := c.trace ++ [EngineCall.start_ssl_client host port a1 a2 a3 a4 a5 ret
                   ctx.socket],
                 _lastError := ret } hs
      exact ⟨this.1, this.2.1⟩
  · simp only [hr, if_false] at hout
    subst hout
    refine ⟨⟨[], ?_, by simp⟩, rfl, ?_, ?_, ?_, ?_⟩
    · apply callsSince_append
      simp
    · intro _; exact ⟨rfl, rfl⟩
    · intro h; exact absurd h hr
    · intro h; exact absurd h hr
    · intro h; exact absurd h hr

/-- The outcome of a connect call, in terms of the result `r` of its one
handshake call and the descriptor `s` the handshake left. -/
theorem connect_outcome (E : Engine ε) (c : Client ε) (host : String) (port : Nat)
    (ip : IPAddress) (ca cert key ident psk : Option String) :
    ∀ out ∈ [connect E c host port, connectCert E c host port ca cert key,
        connectPSK E c host port ident psk, connectIP E c ip port,
        connectIPCert E c ip port ca cert key, connectIPPSK E c ip port ident psk],
      ∃ r s, handshakeResults (callsSince c out.2) = [(r, s)] ∧
        out.2._lastError = r ∧
        (0 ≤ r → out.1 = 1 ∧ out.2._connected = true) ∧
        (r < 0 → out.1 = 0) ∧
        (r < 0 → 0 ≤ s →
          out.2._connected = false ∧ out.2._peek = -1 ∧ out.2.sslclient.socket = -1) ∧
        (r < 0 → s < 0 → out.2._connected = c._connected ∧ out.2._peek = c._peek) := by
  have key : ∀ (h : String) (a1 a2 a3 a4 a5 : Option String) (out : Int × Client ε),
      out = (if (E.start_ssl_client c.engine c.sslclient h port a1 a2 a3 a4 a5).1 < 0 then
        (0, stop E { c with
          sslclient := (E.start_ssl_client c.engine c.sslclient h port a1 a2 a3 a4 a5).2.1
          engine := (E.start_ssl_client c.engine c.sslclient h port a1 a2 a3 a4 a5).2.2
          trace := c.trace ++
            [EngineCall.start_ssl_client h port a1 a2 a3 a4 a5
              (E.start_ssl_client c.engine c.sslclient h port a1 a2 a3 a4 a5).1
              (E.start_ssl_client c.engine c.sslclient h port a1 a2 a3 a4 a5).2.1.socket]
          _lastError := (E.start_ssl_client c.engine c.sslclient h port a1 a2 a3 a4 a5).1 })
      else
        (1, { c with
          sslclient := (E.start_ssl_client c.engine c.sslclient h port a1 a2 a3 a4 a5).2.1
          engine := (E.start_ssl_client c.engine c.sslclient h port a1 a2 a3 a4 a5).2.2
          trace := c.trace ++
            [EngineCall.start_ssl_client h port a1 a2 a3 a4 a5
              (E.start_ssl_client c.engine c.sslclient h port a1 a2 a3 a4 a5).1
              (E.start_ssl_client c.engine c.sslclient h port a1 a2 a3 a4 a5).2.1.socket]
          _lastError := (E.start_ssl_client c.engine c.sslclient h port a1 a2 a3 a4 a5).1
          _connected := true })) →
      ∃ r s, handshakeResults (callsSince c out.2) = [(r, s)] ∧
        out.2._lastError = r ∧
        (0 ≤ r → out.1 = 1 ∧ out.2._connected = true) ∧
        (r < 0 → out.1 = 0) ∧
        (r < 0 → 0 ≤ s →
          out.2._connected = false ∧ out.2._peek = -1 ∧ out.2.sslclient.socket = -1) ∧
        (r < 0 → s < 0 → out.2._connected = c._connected ∧ out.2._peek = c._peek) := by
    intro h a1 a2 a3 a4 a5 out hout
    obtain ⟨⟨tl, htl, hno⟩, h2, h3, h4, h5, h6⟩ :=
      connect_core E c h port a1 a2 a3 a4 a5 _ out hout
    refine ⟨_, _, ?_, h2, h3, h4, h5, h6⟩
    rw [htl]
    simp [handshakeResults, handshakeResults_none tl hno]
  have hPSK : ∀ (h : String) (i k : Option String), _ := fun h i k =>
    key h none none none c._pskIdent c._psKey (connectPSK E c h port i k) rfl
  have hCert : ∀ (h : String) (a b d : Option String), _ := fun h a b d =>
    key h a b d none none (connectCert E c h port a b d) rfl
  intro out hmem
  simp only [List.mem_cons, List.mem_singleton, List.not_mem_nil, or_false] at hmem
  rcases hmem with rfl | rfl | rfl | rfl | rfl | rfl
  · unfold connect
    split
    · exact hPSK _ _ _
    · exact hCert _ _ _ _
  · exact hCert _ _ _ _
  · exact hPSK _ _ _
  · unfold connectIP connectIPPSK connectIPCert
    split
    · exact hPSK _ _ _
    · exact hCert _ _ _ _
  · exact hCert _ _ _ _
  · exact hPSK _ _ _

/-! Connection establishment -/

/-- C1: the zero-credential `connect(host, port)` makes exactly one handshake
call; its credential arguments are `(NULL, NULL, NULL, _pskIdent, _psKey)` when
both PSK members are set and `(_CA_cert, _cert, _private_key, NULL, NULL)`
otherwise, and no call it makes carries a PSK argument together with a CA,
certificate or key argument. -/
theorem connect_selects_credentials (E : Engine ε) (c : Client ε) (host : String)
    (port : Nat) :
    ∃ ca cert key ident psk,
      (ca, cert, key, ident, psk) =
        (if c._pskIdent ≠ none ∧ c._psKey ≠ none then
          (none, none, none, c._pskIdent, c._psKey)
        else (c._CA_cert, c._cert, c._private_key, none, none)) ∧
      (callsSince c (connect E c host port).2).filter EngineCall.isHandshake =
        [EngineCall.start_ssl_client host port ca cert key ident psk
          (E.start_ssl_client c.engine c.sslclient host port ca cert key ident psk).1
          (E.start_ssl_client c.engine c.sslclient host port ca cert key ident psk).2.1.socket] ∧
      ∀ e ∈ callsSince c (connect E c host port).2, e.mixesModes = false := by
  by_cases hp : c._pskIdent ≠ none ∧ c._psKey ≠ none
  · have hsel : (c._pskIdent.isSome && c._psKey.isSome) = true := by
      obtain ⟨h1, h2⟩ := hp
      cases hi : c._pskIdent <;> cases hk : c._psKey <;> simp_all
    obtain ⟨⟨tl, htl, hno⟩, -⟩ := connect_core E c host port none none none c._pskIdent
      c._psKey _ (connectPSK E c host port c._pskIdent c._psKey) rfl
    refine ⟨none, none, none, c._pskIdent, c._psKey, by simp [hp], ?_, ?_⟩
    · simp only [connect, hsel, if_true]
      rw [htl, List.filter_cons]
      simp [EngineCall.isHandshake, filter_isHandshake_none tl hno]
    · simp only [connect, hsel, if_true]
      rw [htl]
      intro e he
      rcases List.mem_cons.mp he with rfl | he
      · simp [EngineCall.mixesModes]
      · exact (hno e he).2.2.2
  · have hsel : (c._pskIdent.isSome && c._psKey.isSome) = false := by
      cases hi : c._pskIdent <;> cases hk : c._psKey <;> simp_all
    obtain ⟨⟨tl, htl, hno⟩, -⟩ := connect_core E c host port c._CA_cert c._cert
      c._private_key none none _ (connectCert E c host port c._CA_cert c._cert c._private_key) rfl
    refine ⟨c._CA_cert, c._cert, c._private_key, none, none, by simp [hp], ?_, ?_⟩
    · simp only [connect, hsel]
      rw [if_neg (by simp), htl, List.filter_cons]
      simp [EngineCall.isHandshake, filter_isHandshake_none tl hno]
    · simp only [connect, hsel]
      rw [if_neg (by simp), htl]
      intro e he
      rcases List.mem_cons.mp he with rfl | he
      · simp [EngineCall.mixesModes]
      · exact (hno e he).2.2.2

/-- C1, at a run: with both a PSK pair and a CA certificate configured, the
one handshake call of `connect("10.0.0.5", 443)` carries the PSK pair and no
CA, certificate or key. -/
theorem connect_selects_credentials_witness :
    (callsSince pskAndCaClient
        (connect scenarioEngine pskAndCaClient "10.0.0.5" 443).2).filter
          EngineCall.isHandshake =
      [EngineCall.start_ssl_client "10.0.0.5" 443 none none none (some "id1")
        (some "deadbeef") 0 7] := by
  obtain ⟨ca, cert, key, ident, psk, hsel, hcall, -⟩ :=
    connect_selects_credentials scenarioEngine pskAndCaClient "10.0.0.5" 443
  have hargs : (ca, cert, key, ident, psk) =
      (none, none, none, some "id1", some "deadbeef") := hsel.trans (by decide)
  simp only [Prod.mk.injEq] at hargs
  obtain ⟨rfl, rfl, rfl, rfl, rfl⟩ := hargs
  exact hcall.trans (by decide)

/-- C2: every connect overload records the handshake's return code `r` as the
last error; it returns 1 and leaves the client connected when `r >= 0`, and
returns 0 when `r < 0`. -/
theorem connect_records_handshake_result (E : Engine ε) (c : Client ε) (host : String)
    (port : Nat) (ip : IPAddress) (ca cert key ident psk : Option String) :
    ∀ out ∈ [connect E c host port, connectCert E c host port ca cert key,
        connectPSK E c host port ident psk, connectIP E c ip port,
        connectIPCert E c ip port ca cert key, connectIPPSK E c ip port ident psk],
      ∃ r s, handshakeResults (callsSince c out.2) = [(r, s)] ∧
        out.2._lastError = r ∧
        (0 ≤ r → out.1 = 1 ∧ out.2._connected = true) ∧
        (r < 0 → out.1 = 0) := by
  intro out hmem
  obtain ⟨r, s, h1, h2, h3, h4, -⟩ :=
    connect_outcome E c host port ip ca cert key ident psk out hmem
  exact ⟨r, s, h1, h2, h3, h4⟩

/-- C2, the scenario: with PSK identity "id1" and key "deadbeef" configured and
a handshake returning 0, `connect("10.0.0.5", 443)` returns 1 and the client is
connected. -/
theorem connect_records_handshake_result_witness :
    (connect scenarioEngine pskClient "10.0.0.5" 443).1 = 1 ∧
      (connect scenarioEngine pskClient "10.0.0.5" 443).2._connected = true := by
  obtain ⟨r, s, -, h2, h3, -⟩ := connect_records_handshake_result scenarioEngine pskClient
    "10.0.0.5" 443 ⟨10, 0, 0, 5⟩ none none none none none
    (connect scenarioEngine pskClient "10.0.0.5" 443) (by simp)
  have hr : (0 : Int) ≤ r := by
    rw [← h2]
    decide
  exact h3 hr

/-- C3 as stated fails: a client wrapping descriptor 5 is connected; a
handshake that returns -1 and leaves the descriptor at -1 makes connect return
0 with the connected flag still set. -/
theorem connect_failure_counterexample :
    wrappedClient._connected = true ∧
      handshakeResults (callsSince wrappedClient
        (connectCert refusingEngine wrappedClient "10.0.0.5" 443 none none none).2) =
          [(-1, -1)] ∧
      (connectCert refusingEngine wrappedClient "10.0.0.5" 443 none none none).1 = 0 ∧
      ¬ (connectCert refusingEngine wrappedClient "10.0.0.5" 443 none none none).2._connected
          = false := by
  decide

/-- C3, amended: a connect call whose handshake returns a negative code
returns 0; the client is then disconnected with an empty peek buffer and
descriptor -1 when the handshake left a valid descriptor (`>= 0`), and keeps its
prior connected flag and peek buffer when the handshake left the descriptor
invalid (`< 0`). -/
theorem connect_failure_teardown (E : Engine ε) (c : Client ε) (host : String)
    (port : Nat) (ip : IPAddress) (ca cert key ident psk : Option String) :
    ∀ out ∈ [connect E c host port, connectCert E c host port ca cert key,
        connectPSK E c host port ident psk, connectIP E c ip port,
        connectIPCert E c ip port ca cert key, connectIPPSK E c ip port ident psk],
      ∀ r s, handshakeResults (callsSince c out.2) = [(r, s)] → r < 0 →
        out.1 = 0 ∧
        (0 ≤ s →
          out.2._connected = false ∧ out.2._peek = -1 ∧ out.2.sslclient.socket = -1) ∧
        (s < 0 → out.2._connected = c._connected ∧ out.2._peek = c._peek) := by
  intro out hmem r s hrs hr
  obtain ⟨r', s', h1, -, -, h4, h5, h6⟩ :=
    connect_outcome E c host port ip ca cert key ident psk out hmem
  rw [hrs] at h1
  simp only [List.cons.injEq, Prod.mk.injEq, and_true] at h1
  obtain ⟨rfl, rfl⟩ := h1
  exact ⟨h4 hr, h5 hr, h6 hr⟩

/-- C3 amended, at a run: the handshake fails with -1 but leaves descriptor 7
open; the connected client ends disconnected, peek buffer empty. -/
theorem connect_failure_teardown_witness :
    (connectCert (fixedEngine (-1) 7 0 0 [] 0) wrappedClient "10.0.0.5" 443 none none none).1
        = 0 ∧
      (connectCert (fixedEngine (-1) 7 0 0 [] 0) wrappedClient "10.0.0.5" 443
        none none none).2._connected = false ∧
      (connectCert (fixedEngine (-1) 7 0 0 [] 0) wrappedClient "10.0.0.5" 443
        none none none).2._peek = -1 := by
  have h := connect_failure_teardown (fixedEngine (-1) 7 0 0 [] 0) wrappedClient "10.0.0.5" 443
    ⟨10, 0, 0, 5⟩ none none none none none
    (connectCert (fixedEngine (-1) 7 0 0 [] 0) wrappedClient "10.0.0.5" 443 none none none)
    (by simp) (-1) 7 (by decide) (by decide)
  exact ⟨h.1, (h.2.1 (by decide)).1, (h.2.1 (by decide)).2.1⟩

/-- C4, at the failing input: the client stores PSK ("stored-id", "stored-key")
and the caller passes ("id1", "deadbeef") to the explicit PSK overload; the one
handshake call receives the stored pair. -/
theorem connectPSK_passes_members :
    callsSince storedPskClient
      (connectPSK scenarioEngine storedPskClient "10.0.0.5" 443 (some "id1")
        (some "deadbeef")).2 =
      [EngineCall.start_ssl_client "10.0.0.5" 443 none none none (some "stored-id")
        (some "stored-key") 0 7] := by
  decide

/-! The read path -/

theorem addInt32_zero (a : Int) : addInt32 a 0 = a := by
  unfold addInt32 wrapInt32
  split_ifs <;> omega

theorem addInt32_exact (a b : Int) (hb : b = 0 ∨ b = 1) (h : a + b ≤ 2147483647) :
    addInt32 a b = a + b := by
  unfold addInt32 wrapInt32
  split_ifs <;> omega

theorem addInt32_le (a b : Int) (hb : b = 0 ∨ b = 1) : addInt32 a b ≤ a + b := by
  unfold addInt32 wrapInt32
  split_ifs <;> omega

theorem available_disconnected (E : Engine ε) (c : Client ε) (h : c._connected = false) :
    available E c = ((if 0 ≤ c._peek then 1 else 0), c) := by
  unfold available
  simp [h]

theorem available_ok (E : Engine ε) (c : Client ε) (h : c._connected = true)
    (hr : 0 ≤ (E.data_to_read c.engine c.sslclient).1) :
    available E c =
      (addInt32 (E.data_to_read c.engine c.sslclient).1 (if 0 ≤ c._peek then 1 else 0),
        { c with
          engine := (E.data_to_read c.engine c.sslclient).2
          trace := c.trace ++
            [EngineCall.data_to_read (E.data_to_read c.engine c.sslclient).1] }) := by
  unfold available
  have hr' : ¬ (E.data_to_read c.engine c.sslclient).1 < 0 := not_lt.mpr hr
  simp [h, hr']

theorem available_err (E : Engine ε) (c : Client ε) (h : c._connected = true)
    (hr : (E.data_to_read c.engine c.sslclient).1 < 0) :
    available E c =
      ((if 0 ≤ c._peek then 1 else (E.data_to_read c.engine c.sslclient).1),
        stop E { c with
          engine := (E.data_to_read c.engine c.sslclient).2
          trace := c.trace ++
            [EngineCall.data_to_read (E.data_to_read c.engine c.sslclient).1] }) := by
  unfold available
  by_cases hp : 0 ≤ c._peek <;> simp [h, hr, hp]

theorem readEngine_ok (E : Engine ε) (c : Client ε) (b : Nat → Nat) (off size : Nat)
    (peeked : Int) (hr : 0 ≤ (E.get_ssl_receive c.engine c.sslclient size).1) :
    readEngine E c b off size peeked =
      (addInt32 (E.get_ssl_receive c.engine c.sslclient size).1 peeked,
        some (store b off (E.get_ssl_receive c.engine c.sslclient size).2.1),
        { c with
          engine := (E.get_ssl_receive c.engine c.sslclient size).2.2
          trace := c.trace ++ [EngineCall.get_ssl_receive off size
            (E.get_ssl_receive c.engine c.sslclient size).1] }) := by
  unfold readEngine
  have hr' : ¬ (E.get_ssl_receive c.engine c.sslclient size).1 < 0 := not_lt.mpr hr
  simp [hr']

theorem readEngine_err (E : Engine ε) (c : Client ε) (b : Nat → Nat) (off size : Nat)
    (peeked : Int) (hr : (E.get_ssl_receive c.engine c.sslclient size).1 < 0) :
    readEngine E c b off size peeked =
      ((if peeked ≠ 0 then peeked else (E.get_ssl_receive c.engine c.sslclient size).1),
        some (store b off (E.get_ssl_receive c.engine c.sslclient size).2.1),
        stop E { c with
          engine := (E.get_ssl_receive c.engine c.sslclient size).2.2
          trace := c.trace ++ [EngineCall.get_ssl_receive off size
            (E.get_ssl_receive c.engine c.sslclient size).1] }) := by
  unfold readEngine
  simp [hr]

/-- C5 as stated fails: on a connected client with a byte buffered (`p = 1`) and
an engine count of 2147483647, the largest `int`, `available()` adds the two as
32-bit `int`s and returns -2147483648, not `c + p = 2147483648`. -/
theorem available_result_counterexample :
    peekedClient._connected = true ∧ 0 ≤ peekedClient._peek ∧
      (saturatedEngine.data_to_read peekedClient.engine peekedClient.sslclient).1 =
        2147483647 ∧
      (available saturatedEngine peekedClient).1 = -2147483648 ∧
      ¬ (available saturatedEngine peekedClient).1 = 2147483647 + 1 := by
  decide

/-- C5, amended: with `p` the 0/1 count of a buffered peek byte on entry,
`available()` returns `p` without any engine call when the client is not
connected; when it is connected and the engine's count `c` is non-negative with
`c + p` at most 2147483647 it returns `c + p`; when `c` is negative it returns
`p` if `p = 1` and `c` if `p = 0`. -/
theorem available_result (E : Engine ε) (c : Client ε) :
    (c._connected = false →
      (available E c).1 = (if 0 ≤ c._peek then 1 else 0) ∧ (available E c).2 = c) ∧
    (c._connected = true → 0 ≤ (E.data_to_read c.engine c.sslclient).1 →
      (E.data_to_read c.engine c.sslclient).1 + (if 0 ≤ c._peek then 1 else 0) ≤ 2147483647 →
      (available E c).1 =
        (E.data_to_read c.engine c.sslclient).1 + (if 0 ≤ c._peek then 1 else 0)) ∧
    (c._connected = true → (E.data_to_read c.engine c.sslclient).1 < 0 →
      (available E c).1 =
        (if 0 ≤ c._peek then 1 else (E.data_to_read c.engine c.sslclient).1)) := by
  refine ⟨fun h => ?_, fun h hr hb => ?_, fun h hr => ?_⟩
  · rw [available_disconnected E c h]
    exact ⟨rfl, rfl⟩
  · rw [available_ok E c h hr]
    refine addInt32_exact _ _ ?_ hb
    by_cases hp : 0 ≤ c._peek
    · right; simp [hp]
    · left; simp [hp]
  · rw [available_err E c h hr]

/-- C5, at three runs: a disconnected client with byte 65 buffered reports 1
with no call made; a connected one with the byte buffered and 10 bytes readable
reports 11; a connected one with nothing buffered and count -1 reports -1. -/
theorem available_result_witness :
    ((available scenarioEngine { pskClient with _peek := 65 }).1 = 1 ∧
        (available scenarioEngine { pskClient with _peek := 65 }).2.trace =
          [EngineCall.ssl_init]) ∧
      (available scenarioEngine peekedClient).1 = 11 ∧
      (available refusingEngine wrappedClient).1 = -1 := by
  refine ⟨?_, ?_, ?_⟩
  · have h := (available_result scenarioEngine { pskClient with _peek := 65 }).1 (by decide)
    refine ⟨h.1.trans (by decide), ?_⟩
    rw [h.2]
    decide
  · exact ((available_result scenarioEngine peekedClient).2.1
      (by decide) (by decide) (by decide)).trans (by decide)
  · exact ((available_result refusingEngine wrappedClient).2.2 (by decide) (by decide)).trans
      (by decide)

theorem read_null (E : Engine ε) (c : Client ε) (size : Nat) :
    read E c none size =
      (if size ≠ 0 ∨ (available E c).1 ≤ 0 then -1 else 0, none, (available E c).2) := by
  unfold read
  simp only
  split_ifs <;> rfl

theorem read_unavailable (E : Engine ε) (c : Client ε) (b : Nat → Nat) (size : Nat)
    (h : (available E c).1 ≤ 0) : read E c (some b) size = (-1, some b, (available E c).2) := by
  unfold read
  simp [h]

theorem read_zero (E : Engine ε) (c : Client ε) (b : Nat → Nat)
    (h : 0 < (available E c).1) : read E c (some b) 0 = (0, some b, (available E c).2) := by
  unfold read
  have h' : ¬ (available E c).1 ≤ 0 := not_le.mpr h
  simp [h']

theorem read_peek_only (E : Engine ε) (c : Client ε) (b : Nat → Nat) (size : Nat)
    (h : 0 < (available E c).1) (hs : size ≠ 0) (hp : 0 ≤ (available E c).2._peek)
    (hd : size = 1 ∨ (available E c).1 = 1) :
    read E c (some b) size =
      (1, some (Function.update b 0 ((available E c).2._peek % 256).toNat),
        { (available E c).2 with _peek := -1 }) := by
  unfold read
  have h' : ¬ (available E c).1 ≤ 0 := not_le.mpr h
  have hd' : size - 1 = 0 ∨ (available E c).1 - 1 = 0 := by
    rcases hd with hd | hd
    · left; omega
    · right; omega
  simp only [h', hs, if_false, ge_iff_le, hp, if_true, hd']

theorem read_peek_more (E : Engine ε) (c : Client ε) (b : Nat → Nat) (size : Nat)
    (h : 0 < (available E c).1) (hs : size ≠ 0) (hp : 0 ≤ (available E c).2._peek)
    (h1 : size ≠ 1) (h2 : (available E c).1 ≠ 1) :
    read E c (some b) size =
      readEngine E { (available E c).2 with _peek := -1 }
        (Function.update b 0 ((available E c).2._peek % 256).toNat) 1 (size - 1) 1 := by
  unfold read
  have h' : ¬ (available E c).1 ≤ 0 := not_le.mpr h
  have hd' : ¬ (size - 1 = 0 ∨ (available E c).1 - 1 = 0) := by
    intro hd
    rcases hd with hd | hd
    · omega
    · omega
  simp only [h', hs, if_false, ge_iff_le, hp, if_true, hd']

theorem read_no_peek (E : Engine ε) (c : Client ε) (b : Nat → Nat) (size : Nat)
    (h : 0 < (available E c).1) (hs : size ≠ 0) (hp : (available E c).2._peek < 0) :
    read E c (some b) size = readEngine E (available E c).2 b 0 size 0 := by
  unfold read
  have h' : ¬ (available E c).1 ≤ 0 := not_le.mpr h
  have hp' : ¬ (available E c).2._peek ≥ 0 := not_le.mpr hp
  simp only [h', hs, if_false, hp']

theorem connected_disconnected (E : Engine ε) (c : Client ε) (h : c._connected = false) :
    connected E c = (false, c) := by
  unfold connected
  by_cases hav : 0 < (available E c).1
  · rw [read_zero E c _ hav, available_disconnected E c h]
    simp [h]
  · rw [read_unavailable E c _ 0 (not_lt.mp hav), available_disconnected E c h]
    simp [h]

theorem readEngine_disconnected (E : Engine ε) (c : Client ε) (b : Nat → Nat) (off size : Nat)
    (peeked : Int) (hc : c._connected = false) (hs : c.sslclient.socket < 0) :
    (readEngine E c b off size peeked).2.2._connected = false := by
  by_cases hr : (E.get_ssl_receive c.engine c.sslclient size).1 < 0
  · rw [readEngine_err E c b off size peeked hr]
    refine Eq.trans (stop_invalid E _ ?_).1 hc
    exact hs
  · rw [readEngine_ok E c b off size peeked (not_lt.mp hr)]
    exact hc

theorem readEngine_io_failure (E : Engine ε) (c0 c : Client ε) (b : Nat → Nat)
    (off size : Nat) (peeked : Int) (d : Int) (hd : 0 ≤ d)
    (htr : c.trace = c0.trace ++ [EngineCall.data_to_read d])
    (hs : 0 ≤ c.sslclient.socket)
    (hneg : ∃ e ∈ callsSince c0 (readEngine E c b off size peeked).2.2,
      ∃ r, e.ioResult = some r ∧ r < 0) :
    (readEngine E c b off size peeked).2.2._connected = false := by
  by_cases hr : (E.get_ssl_receive c.engine c.sslclient size).1 < 0
  · rw [readEngine_err E c b off size peeked hr]
    refine (stop_valid E _ ?_).1
    exact hs
  · exfalso
    rw [readEngine_ok E c b off size peeked (not_lt.mp hr)] at hneg
    rw [callsSince_append c0 _ [EngineCall.data_to_read d, EngineCall.get_ssl_receive off size
      (E.get_ssl_receive c.engine c.sslclient size).1] (by simp [htr])] at hneg
    obtain ⟨e, he, r, her, hrneg⟩ := hneg
    simp only [List.mem_cons, List.mem_singleton, List.not_mem_nil, or_false] at he
    rcases he with rfl | rfl
    · simp only [EngineCall.ioResult, Option.some.injEq] at her
      omega
    · simp only [EngineCall.ioResult, Option.some.injEq] at her
      omega

theorem available_io_failure (E : Engine ε) (c : Client ε) (hc : c._connected = true)
    (hs : 0 ≤ c.sslclient.socket)
    (hneg : ∃ e ∈ callsSince c (available E c).2, ∃ r, e.ioResult = some r ∧ r < 0) :
    (available E c).2._connected = false := by
  by_cases hr : (E.data_to_read c.engine c.sslclient).1 < 0
  · rw [available_err E c hc hr]
    refine (stop_valid E _ ?_).1
    exact hs
  · exfalso
    rw [available_ok E c hc (not_lt.mp hr)] at hneg
    rw [callsSince_append c _ [EngineCall.data_to_read (E.data_to_read c.engine c.sslclient).1]
      rfl] at hneg
    obtain ⟨e, he, r, her, hrneg⟩ := hneg
    simp only [List.mem_singleton] at he
    subst he
    simp only [EngineCall.ioResult, Option.some.injEq] at her
    omega

theorem write_io_failure (E : Engine ε) (c : Client ε) (buf : Option (Nat → Nat)) (size : Nat)
    (hc : c._connected = true) (hs : 0 ≤ c.sslclient.socket)
    (hneg : ∃ e ∈ callsSince c (write E c buf size).2, ∃ r, e.ioResult = some r ∧ r < 0) :
    (write E c buf size).2._connected = false := by
  unfold write at hneg ⊢
  by_cases hr : (E.send_ssl_data c.engine c.sslclient buf size).1 < 0
  · simp only [hc, Bool.not_true, Bool.false_eq_true, if_false, hr, if_true]
    refine (stop_valid E _ ?_).1
    exact hs
  · exfalso
    simp only [hc, Bool.not_true, Bool.false_eq_true, if_false, hr] at hneg
    rw [callsSince_append c _ [EngineCall.send_ssl_data size
      (E.send_ssl_data c.engine c.sslclient buf size).1] rfl] at hneg
    obtain ⟨e, he, r, her, hrneg⟩ := hneg
    simp only [List.mem_singleton] at he
    subst he
    simp only [EngineCall.ioResult, Option.some.injEq] at her
    omega

theorem read_io_failure (E : Engine ε) (c : Client ε) (buf : Option (Nat → Nat)) (size : Nat)
    (hc : c._connected = true) (hs : 0 ≤ c.sslclient.socket)
    (hneg : ∃ e ∈ callsSince c (read E c buf size).2.2, ∃ r, e.ioResult = some r ∧ r < 0) :
    (read E c buf size).2.2._connected = false := by
  by_cases hr : (E.data_to_read c.engine c.sslclient).1 < 0
  · -- the byte-count query failed: `available` has already torn the session down
    have hav := available_err E c hc hr
    have hst := stop_valid E { c with
      engine := (E.data_to_read c.engine c.sslclient).2
      trace := c.trace ++ [EngineCall.data_to_read (E.data_to_read c.engine c.sslclient).1] } hs
    have hdc : (available E c).2._connected = false := by rw [hav]; exact hst.1
    have hsk : (available E c).2.sslclient.socket < 0 := by rw [hav, hst.2.2]; decide
    cases buf with
    | none => rw [read_null]; exact hdc
    | some b =>
      by_cases h0 : 0 < (available E c).1
      · by_cases hz : size = 0
        · subst hz
          rw [read_zero E c b h0]; exact hdc
        · by_cases hp : 0 ≤ (available E c).2._peek
          · by_cases hd : size = 1 ∨ (available E c).1 = 1
            · rw [read_peek_only E c b size h0 hz hp hd]; exact hdc
            · rw [read_peek_more E c b size h0 hz hp (fun h => hd (Or.inl h))
                (fun h => hd (Or.inr h))]
              exact readEngine_disconnected E _ _ _ _ _ hdc hsk
          · rw [read_no_peek E c b size h0 hz (not_le.mp hp)]
            exact readEngine_disconnected E _ _ _ _ _ hdc hsk
      · rw [read_unavailable E c b size (not_lt.mp h0)]; exact hdc
  · have hav := available_ok E c hc (not_lt.mp hr)
    have htr : (available E c).2.trace =
        c.trace ++ [EngineCall.data_to_read (E.data_to_read c.engine c.sslclient).1] := by
      rw [hav]
    have hsk : 0 ≤ (available E c).2.sslclient.socket := by rw [hav]; exact hs
    have hquiet : ∀ c1 : Client ε, c1.trace = (available E c).2.trace →
        ¬ ∃ e ∈ callsSince c c1, ∃ r, e.ioResult = some r ∧ r < 0 := by
      intro c1 h1 hex
      rw [callsSince_append c c1 _ (h1.trans htr)] at hex
      obtain ⟨e, he, r, her, hrneg⟩ := hex
      simp only [List.mem_singleton] at he
      subst he
      simp only [EngineCall.ioResult, Option.some.injEq] at her
      omega
    cases buf with
    | none =>
      rw [read_null] at hneg
      exact absurd hneg (hquiet _ rfl)
    | some b =>
      by_cases h0 : 0 < (available E c).1
      · by_cases hz : size = 0
        · subst hz
          rw [read_zero E c b h0] at hneg
          exact absurd hneg (hquiet _ rfl)
        · by_cases hp : 0 ≤ (available E c).2._peek
          · by_cases hd : size = 1 ∨ (available E c).1 = 1
            · rw [read_peek_only E c b size h0 hz hp hd] at hneg
              exact absurd hneg (hquiet _ rfl)
            · rw [read_peek_more E c b size h0 hz hp (fun h => hd (Or.inl h))
                (fun h => hd (Or.inr h))] at hneg ⊢
              exact readEngine_io_failure E c _ _ _ _ _ _ (not_lt.mp hr) htr hsk hneg
          · rw [read_no_peek E c b size h0 hz (not_le.mp hp)] at hneg ⊢
            exact readEngine_io_failure E c _ _ _ _ _ _ (not_lt.mp hr) htr hsk hneg
      · rw [read_unavailable E c b size (not_lt.mp h0)] at hneg
        exact absurd hneg (hquiet _ rfl)

/-- C6 as stated fails: the client is marked connected while its descriptor is
-1 (a connect on a descriptor-wrapping client whose handshake failed before a
socket was open); the byte-count query then returns -1 and `available()` leaves
the connected flag set, so `connected()` still reports true. -/
theorem io_failure_counterexample :
    staleClient._connected = true ∧
      callsSince staleClient (available refusingEngine staleClient).2 =
        [EngineCall.data_to_read (-1), EngineCall.stop_ssl_socket none none none] ∧
      ¬ (available refusingEngine staleClient).2._connected = false ∧
      (connected refusingEngine (available refusingEngine staleClient).2).1 = true := by
  decide

/-- C6, amended: for a connected client whose descriptor is valid (`>= 0`),
whenever an engine I/O call made by `available()`, `read(buf, size)` or
`write(buf, size)` returns a negative code, the client is disconnected when the
operation returns, and a following `connected()` returns false. -/
theorem io_failure_disconnects (E : Engine ε) (c : Client ε) (buf wbuf : Option (Nat → Nat))
    (size wsize : Nat) (hc : c._connected = true) (hs : 0 ≤ c.sslclient.socket) :
    ∀ c1 ∈ [(available E c).2, (read E c buf size).2.2, (write E c wbuf wsize).2],
      (∃ e ∈ callsSince c c1, ∃ r, e.ioResult = some r ∧ r < 0) →
        c1._connected = false ∧ (connected E c1).1 = false := by
  intro c1 hmem hneg
  have hdc : c1._connected = false := by
    simp only [List.mem_cons, List.mem_singleton, List.not_mem_nil, or_false] at hmem
    rcases hmem with rfl | rfl | rfl
    · exact available_io_failure E c hc hs hneg
    · exact read_io_failure E c buf size hc hs hneg
    · exact write_io_failure E c wbuf wsize hc hs hneg
  exact ⟨hdc, by rw [connected_disconnected E c1 hdc]⟩

/-- C6 amended, the scenario: after the successful PSK connect the engine's
read returns -2 during `read(buf, 10)`; the client is then disconnected and
`connected()` is false. -/
theorem io_failure_disconnects_witness :
    (read scenarioEngine (connect scenarioEngine pskClient "10.0.0.5" 443).2
        (some (fun _ => 0)) 10).2.2._connected = false ∧
      (connected scenarioEngine
        (read scenarioEngine (connect scenarioEngine pskClient "10.0.0.5" 443).2
          (some (fun _ => 0)) 10).2.2).1 = false :=
  io_failure_disconnects scenarioEngine (connect scenarioEngine pskClient "10.0.0.5" 443).2
    (some (fun _ => 0)) none 10 0 (by decide) (by decide) _ (by simp)
    ⟨EngineCall.get_ssl_receive 0 10 (-2), by decide, -2, by decide, by decide⟩

/-- C7 as stated fails: on a connected client with no peek byte buffered and an
engine count of 0, and on a fresh disconnected client, `read(buf, 0)` returns
-1, not 0. -/
theorem read_zero_counterexample :
    wrappedClient._connected = true ∧ wrappedClient._peek = -1 ∧
      (idleEngine.data_to_read wrappedClient.engine wrappedClient.sslclient).1 = 0 ∧
      (read idleEngine wrappedClient (some (fun _ => 0)) 0).1 = -1 ∧
      pskClient._connected = false ∧
      (read idleEngine pskClient (some (fun _ => 0)) 0).1 = -1 := by
  decide

/-- C7, amended: when the client is disconnected, or connected with a
non-negative engine count, `read(buf, 0)` returns 0 if `available()` is positive
and -1 if it is not, and leaves the connected flag, the descriptor, the peek
buffer and the caller's buffer unchanged; `available()` is there the 0/1 count
of a buffered byte plus, on a connected client, the engine's count, as long as
that sum is at most 2147483647. -/
theorem read_zero_probe (E : Engine ε) (c : Client ε) (buf : Option (Nat → Nat))
    (hok : c._connected = false ∨ 0 ≤ (E.data_to_read c.engine c.sslclient).1) :
    ((if 0 ≤ c._peek then 1 else 0) +
          (if c._connected = true then (E.data_to_read c.engine c.sslclient).1 else 0)
        ≤ 2147483647 →
      (available E c).1 =
        (if 0 ≤ c._peek then 1 else 0) +
          (if c._connected = true then (E.data_to_read c.engine c.sslclient).1 else 0)) ∧
      (read E c buf 0).1 = (if 0 < (available E c).1 then 0 else -1) ∧
      (read E c buf 0).2.2._connected = c._connected ∧
      (read E c buf 0).2.2.sslclient = c.sslclient ∧
      (read E c buf 0).2.2._peek = c._peek ∧
      (read E c buf 0).2.1 = buf := by
  have hst : ((if 0 ≤ c._peek then 1 else 0) +
          (if c._connected = true then (E.data_to_read c.engine c.sslclient).1 else 0)
        ≤ 2147483647 →
      (available E c).1 =
        (if 0 ≤ c._peek then 1 else 0) +
          (if c._connected = true then (E.data_to_read c.engine c.sslclient).1 else 0)) ∧
      (available E c).2._connected = c._connected ∧
      (available E c).2.sslclient = c.sslclient ∧ (available E c).2._peek = c._peek := by
    by_cases hc : c._connected = true
    · have hr : 0 ≤ (E.data_to_read c.engine c.sslclient).1 := by
        rcases hok with h | h
        · rw [hc] at h
          exact absurd h (by decide)
        · exact h
      rw [available_ok E c hc hr]
      refine ⟨?_, ?_, rfl, rfl⟩
      · simp only [hc, if_true]
        intro hb
        rw [addInt32_exact _ _ ?_ (by omega)]
        · exact add_comm _ _
        · by_cases hp : 0 ≤ c._peek
          · right; simp [hp]
          · left; simp [hp]
      · simp [hc]
    · have hc' : c._connected = false := by simpa using hc
      rw [available_disconnected E c hc']
      simp [hc']
  refine ⟨hst.1, ?_⟩
  cases buf with
  | none =>
    rw [read_null]
    by_cases h0 : 0 < (available E c).1
    · have h0' : ¬ (available E c).1 ≤ 0 := not_le.mpr h0
      simp only [h0, h0', ne_eq, not_true_eq_false, or_self, if_false, if_true]
      exact ⟨trivial, hst.2.1, hst.2.2.1, hst.2.2.2, trivial⟩
    · have h0' : (available E c).1 ≤ 0 := not_lt.mp h0
      simp only [h0, h0', or_true, if_true, if_false]
      exact ⟨trivial, hst.2.1, hst.2.2.1, hst.2.2.2, trivial⟩
  | some b =>
    by_cases h0 : 0 < (available E c).1
    · rw [read_zero E c b h0]
      simp only [h0, if_true]
      exact ⟨trivial, hst.2.1, hst.2.2.1, hst.2.2.2, trivial⟩
    · rw [read_unavailable E c b 0 (not_lt.mp h0)]
      simp only [h0, if_false]
      exact ⟨trivial, hst.2.1, hst.2.2.1, hst.2.2.2, trivial⟩

/-- C7 amended, at a run: a connected client with byte 65 buffered and an engine
count of 0 gets 0 from `read(buf, 0)` and keeps the byte. -/
theorem read_zero_probe_witness :
    (read idleEngine peekedClient (some (fun _ => 0)) 0).1 = 0 ∧
      (read idleEngine peekedClient (some (fun _ => 0)) 0).2.2._peek
        = 65 := by
  have h := read_zero_probe idleEngine peekedClient (some (fun _ => 0))
    (Or.inr (by decide))
  exact ⟨h.2.1.trans (by decide), h.2.2.2.2.1.trans (by decide)⟩

/-- C8, at the failing input: a connected client on descriptor 5 has byte 65
buffered, so `peek()` returns 65; the engine's byte-count query then fails with
-1.  The `read(buf, 1)` that follows does not return 1: `available()` reports 1
after `stop()` has emptied the peek buffer, the bulk read is called on the torn
down session, and the read returns its -1 with `buf[0]` untouched. -/
theorem peek_then_read_loses_byte :
    (peek refusingEngine 0 peekedClient).1 = 65 ∧
      (read refusingEngine (peek refusingEngine 0 peekedClient).2
        (some (fun _ => 0)) 1).1 = -1 ∧
      ((read refusingEngine (peek refusingEngine 0 peekedClient).2
        (some (fun _ => 0)) 1).2.1.getD (fun _ => 0)) 0 = 0 ∧
      callsSince peekedClient
        (read refusingEngine (peek refusingEngine 0 peekedClient).2
          (some (fun _ => 0)) 1).2.2 =
        [EngineCall.data_to_read (-1), EngineCall.close 5,
          EngineCall.stop_ssl_socket none none none,
          EngineCall.get_ssl_receive 0 1 (-1), EngineCall.stop_ssl_socket none none none] := by
  decide

/-- C9, at the failing input: byte 65 is buffered on a connected client on
descriptor 5, `size = 1`, and the engine's byte-count query fails with -1.
`read(buf, 1)` does not return 1 with `buf[0] = 65`: it invokes the engine's
bulk read and returns its -1, leaving `buf[0]` untouched. -/
theorem read_one_invokes_bulk_read :
    peekedClient._peek = 65 ∧ peekedClient._connected = true ∧
      (read refusingEngine peekedClient (some (fun _ => 0)) 1).1 = -1 ∧
      ((read refusingEngine peekedClient (some (fun _ => 0)) 1).2.1.getD (fun _ => 0)) 0 = 0 ∧
      (callsSince peekedClient
        (read refusingEngine peekedClient (some (fun _ => 0)) 1).2.2).filter
          EngineCall.isReceive = [EngineCall.get_ssl_receive 0 1 (-1)] := by
  decide

theorem filter_isReceive_none (tl : List EngineCall)
    (h : ∀ e ∈ tl, e.isReceive = false) : tl.filter EngineCall.isReceive = [] := by
  rw [List.filter_eq_nil_iff]
  intro e he
  simp [h e he]

theorem available_trace (E : Engine ε) (c : Client ε) :
    ∃ tl, (available E c).2.trace = c.trace ++ tl ∧ ∀ e ∈ tl, e.isReceive = false := by
  by_cases hc : c._connected = true
  · by_cases hr : (E.data_to_read c.engine c.sslclient).1 < 0
    · rw [available_err E c hc hr]
      obtain ⟨tl, htl, hno⟩ := stop_trace E { c with
        engine := (E.data_to_read c.engine c.sslclient).2
        trace := c.trace ++ [EngineCall.data_to_read (E.data_to_read c.engine c.sslclient).1] }
      refine ⟨EngineCall.data_to_read (E.data_to_read c.engine c.sslclient).1 :: tl, ?_, ?_⟩
      · simp [htl]
      · intro e he
        rcases List.mem_cons.mp he with rfl | he
        · rfl
        · exact (hno e he).2.1
    · rw [available_ok E c hc (not_lt.mp hr)]
      refine ⟨[EngineCall.data_to_read (E.data_to_read c.engine c.sslclient).1], rfl, ?_⟩
      intro e he
      rw [List.mem_singleton.mp he]
      rfl
  · rw [available_disconnected E c (by simpa using hc)]
    exact ⟨[], by simp, by simp⟩

/-- What the tail of `read` does once it calls the bulk read on a client whose
peek buffer is empty. -/
theorem readEngine_spec (E : Engine ε) (c : Client ε) (b : Nat → Nat) (off size : Nat)
    (peeked : Int) (hp : c._peek = -1) :
    (∃ tl, (readEngine E c b off size peeked).2.2.trace =
        c.trace ++ EngineCall.get_ssl_receive off size
          (E.get_ssl_receive c.engine c.sslclient size).1 :: tl ∧
        ∀ e ∈ tl, e.isReceive = false) ∧
      (0 ≤ (E.get_ssl_receive c.engine c.sslclient size).1 →
        (readEngine E c b off size peeked).1 =
          addInt32 (E.get_ssl_receive c.engine c.sslclient size).1 peeked) ∧
      ((E.get_ssl_receive c.engine c.sslclient size).1 < 0 →
        (readEngine E c b off size peeked).1 =
          if peeked ≠ 0 then peeked else (E.get_ssl_receive c.engine c.sslclient size).1) ∧
      (readEngine E c b off size peeked).2.1 =
        some (store b off (E.get_ssl_receive c.engine c.sslclient size).2.1) ∧
      (readEngine E c b off size peeked).2.2._peek = -1 := by
  by_cases hr : (E.get_ssl_receive c.engine c.sslclient size).1 < 0
  · rw [readEngine_err E c b off size peeked hr]
    obtain ⟨tl, htl, hno⟩ := stop_trace E { c with
      engine := (E.get_ssl_receive c.engine c.sslclient size).2.2
      trace := c.trace ++ [EngineCall.get_ssl_receive off size
        (E.get_ssl_receive c.engine c.sslclient size).1] }
    refine ⟨⟨tl, by simp [htl], fun e he => (hno e he).2.1⟩, ?_, fun _ => rfl, rfl, ?_⟩
    · intro h
      exact absurd hr (not_lt.mpr h)
    · by_cases hs : 0 ≤ c.sslclient.socket
      · refine (stop_valid E _ ?_).2.1
        exact hs
      · refine Eq.trans (stop_invalid E _ ?_).2.1 hp
        exact not_le.mp hs
  · rw [readEngine_ok E c b off size peeked (not_lt.mp hr)]
    refine ⟨⟨[], by simp, by simp⟩, fun _ => rfl, ?_, rfl, hp⟩
    intro h
    exact absurd h hr

/-- C10 as stated fails: byte 65 is buffered on a connected client with 10
bytes readable, so `read(buf, 10)` delivers it (`k = 1`) and calls the bulk read
for 9 bytes at offset 1; the engine answers 2147483647, the largest `int`, and
the read adds the two as 32-bit `int`s and returns -2147483648, not
`r + k = 2147483648`. -/
theorem read_bulk_counterexample :
    peekedClient._connected = true ∧
      (available overlongEngine peekedClient).1 = 11 ∧
      (callsSince peekedClient
        (read overlongEngine peekedClient (some (fun _ => 0)) 10).2.2).filter
          EngineCall.isReceive = [EngineCall.get_ssl_receive 1 9 2147483647] ∧
      ((read overlongEngine peekedClient (some (fun _ => 0)) 10).2.1.getD (fun _ => 0)) 0
        = 65 ∧
      (read overlongEngine peekedClient (some (fun _ => 0)) 10).1 = -2147483648 ∧
      ¬ (read overlongEngine peekedClient (some (fun _ => 0)) 10).1 = 2147483647 + 1 := by
  decide

/-- C10, amended: when `read(buf, size)` with `available() > 0`, non-null `buf`
and `size >= 1` reaches the engine's bulk read (which only a connected client
does), with `k = 1` if the buffered peek byte was delivered to `buf[0]` and
`k = 0` otherwise, the bulk read is called once, for `size - k` bytes at offset
`k`; if it returns `r >= 0` with `r + k` at most 2147483647 the read returns
`r + k`, and if it returns `r < 0` the read returns 1 when `k = 1` and `r` when
`k = 0`. -/
theorem read_bulk_result (E : Engine ε) (c : Client ε) (b : Nat → Nat) (size k : Nat)
    (r : Int) (hav : 0 < (available E c).1) (hsize : 1 ≤ size)
    (hreach : ∃ e ∈ callsSince c (read E c (some b) size).2.2, e.isReceive = true)
    (hk : k = if 0 ≤ (available E c).2._peek then 1 else 0)
    (hr : r = (E.get_ssl_receive (available E c).2.engine (available E c).2.sslclient
      (size - k)).1) :
    (callsSince c (read E c (some b) size).2.2).filter EngineCall.isReceive =
        [EngineCall.get_ssl_receive k (size - k) r] ∧
      (0 ≤ r → r + k ≤ 2147483647 → (read E c (some b) size).1 = r + k) ∧
      (r < 0 → (read E c (some b) size).1 = if k = 1 then 1 else r) ∧
      (k = 1 →
        ((read E c (some b) size).2.1.getD b) 0 = ((available E c).2._peek % 256).toNat ∧
        (read E c (some b) size).2.2._peek = -1) := by
  have hz : size ≠ 0 := by omega
  obtain ⟨tl0, htl0, hno0⟩ := available_trace E c
  by_cases hp : 0 ≤ (available E c).2._peek
  · have hk1 : k = 1 := by rw [hk, if_pos hp]
    subst hk1
    by_cases hd : size = 1 ∨ (available E c).1 = 1
    · exfalso
      rw [read_peek_only E c b size hav hz hp hd] at hreach
      obtain ⟨e, he, hrecv⟩ := hreach
      have he0 : e ∈ tl0 := by
        rw [← callsSince_append c { (available E c).2 with _peek := -1 } tl0 htl0]
        exact he
      rw [hno0 e he0] at hrecv
      exact absurd hrecv (by decide)
    · rw [read_peek_more E c b size hav hz hp (fun h => hd (Or.inl h)) (fun h => hd (Or.inr h))]
      obtain ⟨⟨tl, htl, hno⟩, hok, herr, hbuf, hpk⟩ := readEngine_spec E
        { (available E c).2 with _peek := -1 }
        (Function.update b 0 ((available E c).2._peek % 256).toNat) 1 (size - 1) 1 rfl
      refine ⟨?_, ?_, ?_, ?_⟩
      · rw [callsSince_append c _ (tl0 ++ EngineCall.get_ssl_receive 1 (size - 1) r :: tl)
          (by rw [htl, hr]; simp [htl0])]
        rw [List.filter_append, filter_isReceive_none tl0 hno0, List.filter_cons]
        simp [EngineCall.isReceive, filter_isReceive_none tl hno]
      · intro h0 hb
        rw [hr] at h0 hb ⊢
        rw [hok h0]
        exact addInt32_exact _ _ (Or.inr rfl) hb
      · intro h0
        rw [hr] at h0
        rw [herr h0]
        simp
      · intro _
        refine ⟨?_, hpk⟩
        rw [hbuf]
        simp [store]
  · have hk0 : k = 0 := by rw [hk, if_neg hp]
    subst hk0
    rw [read_no_peek E c b size hav hz (not_le.mp hp)]
    refine ⟨?_, ?_, ?_, ?_⟩
    · by_cases hrr : (E.get_ssl_receive (available E c).2.engine (available E c).2.sslclient
          size).1 < 0
      · rw [readEngine_err E _ b 0 size 0 hrr]
        obtain ⟨tl, htl, hno⟩ := stop_trace E { (available E c).2 with
          engine := (E.get_ssl_receive (available E c).2.engine (available E c).2.sslclient
            size).2.2
          trace := (available E c).2.trace ++ [EngineCall.get_ssl_receive 0 size
            (E.get_ssl_receive (available E c).2.engine (available E c).2.sslclient size).1] }
        rw [callsSince_append c _ (tl0 ++ EngineCall.get_ssl_receive 0 size r :: tl)
          (by rw [htl, hr]; simp [htl0])]
        rw [List.filter_append, filter_isReceive_none tl0 hno0, List.filter_cons]
        simp [EngineCall.isReceive, filter_isReceive_none tl (fun e he => (hno e he).2.1)]
      · rw [readEngine_ok E _ b 0 size 0 (not_lt.mp hrr)]
        rw [callsSince_append c _ (tl0 ++ [EngineCall.get_ssl_receive 0 size r])
          (by rw [hr]; simp [htl0])]
        rw [List.filter_append, filter_isReceive_none tl0 hno0]
        simp [EngineCall.isReceive]
    · intro h0 _
      rw [hr] at h0 ⊢
      rw [readEngine_ok E _ b 0 size 0 h0]
      simp [addInt32_zero]
    · intro h0
      rw [hr] at h0 ⊢
      rw [readEngine_err E _ b 0 size 0 h0]
      simp
    · intro h
      exact absurd h (by decide)

/-- C10, the scenario: no peek byte is buffered, 10 bytes are readable and the
engine's bulk read returns -2; `read(buf, 10)` asks for 10 bytes at offset 0 and
returns -2. -/
theorem read_bulk_result_witness :
    (callsSince wrappedClient
        (read scenarioEngine wrappedClient (some (fun _ => 0)) 10).2.2).filter
          EngineCall.isReceive = [EngineCall.get_ssl_receive 0 10 (-2)] ∧
      (read scenarioEngine wrappedClient (some (fun _ => 0)) 10).1 = -2 := by
  have h := read_bulk_result scenarioEngine wrappedClient (fun _ => 0) 10 0 (-2)
    (by decide) (by decide)
    ⟨EngineCall.get_ssl_receive 0 10 (-2), by decide, by decide⟩ (by decide) (by decide)
  exact ⟨h.1, (h.2.2.1 (by decide)).trans (by decide)⟩

/-! Delivery of a buffered byte -/

/-- Outside the failing byte-count query, a buffered peek byte is what
`read(buf, size)` delivers: with a byte buffered, non-null `buf`, `size >= 1`
and a client that is disconnected or whose engine count is non-negative and
below 2147483647, if `size = 1`, the client is disconnected or the count is 0,
the read returns 1, stores the byte in `buf[0]`, empties the peek buffer and
makes no bulk read. -/
theorem read_delivers_peek (E : Engine ε) (c : Client ε) (b : Nat → Nat) (size : Nat)
    (hp : 0 ≤ c._peek) (hsize : 1 ≤ size)
    (hok : c._connected = false ∨ (0 ≤ (E.data_to_read c.engine c.sslclient).1 ∧
      (E.data_to_read c.engine c.sslclient).1 < 2147483647))
    (hone : size = 1 ∨ c._connected = false ∨ (E.data_to_read c.engine c.sslclient).1 = 0) :
    (read E c (some b) size).1 = 1 ∧
      ((read E c (some b) size).2.1.getD b) 0 = (c._peek % 256).toNat ∧
      (read E c (some b) size).2.2._peek = -1 ∧
      (callsSince c (read E c (some b) size).2.2).filter EngineCall.isReceive = [] := by
  have hz : size ≠ 0 := by omega
  obtain ⟨tl0, htl0, hno0⟩ := available_trace E c
  have hst : 0 < (available E c).1 ∧ (available E c).2._peek = c._peek ∧
      (size = 1 ∨ (available E c).1 = 1) := by
    by_cases hc : c._connected = true
    · have hr : 0 ≤ (E.data_to_read c.engine c.sslclient).1 ∧
          (E.data_to_read c.engine c.sslclient).1 < 2147483647 := by
        rcases hok with h | h
        · rw [hc] at h
          exact absurd h (by decide)
        · exact h
      rw [available_ok E c hc hr.1]
      simp only [hp, if_true]
      rw [addInt32_exact _ 1 (Or.inr rfl) (by omega)]
      refine ⟨by omega, trivial, ?_⟩
      rcases hone with h | h | h
      · exact Or.inl h
      · rw [hc] at h
        exact absurd h (by decide)
      · right
        omega
    · have hc' : c._connected = false := by simpa using hc
      rw [available_disconnected E c hc']
      simp [hp]
  have hp1 : 0 ≤ (available E c).2._peek := by rw [hst.2.1]; exact hp
  rw [read_peek_only E c b size hst.1 hz hp1 hst.2.2]
  refine ⟨rfl, ?_, rfl, ?_⟩
  · simp [hst.2.1]
  · rw [callsSince_append c { (available E c).2 with _peek := -1 } tl0 htl0]
    exact filter_isReceive_none tl0 hno0

/-! The single-byte read -/

/-- C11 as stated fails: on a connected client with 10 bytes readable and no
byte buffered, the engine's bulk read fails with -2 and `read()` returns -2, not
-1. -/
theorem readByte_counterexample :
    (available scenarioEngine wrappedClient).1 = 10 ∧
      (scenarioEngine.get_ssl_receive wrappedClient.engine wrappedClient.sslclient 1).1 = -2 ∧
      (readByte scenarioEngine wrappedClient).1 = -2 ∧
      ¬ (readByte scenarioEngine wrappedClient).1 = -1 := by
  decide

/-- C11, amended: `read()` returns -1 when no data is available
(`available() <= 0`); when a byte is buffered it returns that byte; otherwise it
calls the bulk read for one byte and returns the engine's own negative code if
that fails, and the byte the engine stored, as an integer in 0..255, if the bulk
read returns a positive count. -/
theorem readByte_result (E : Engine ε) (c : Client ε) :
    ((available E c).1 ≤ 0 → (readByte E c).1 = -1) ∧
    (0 < (available E c).1 → 0 ≤ (available E c).2._peek →
      (readByte E c).1 = (available E c).2._peek % 256) ∧
    (0 < (available E c).1 → (available E c).2._peek < 0 →
      ((E.get_ssl_receive (available E c).2.engine (available E c).2.sslclient 1).1 < 0 →
        (readByte E c).1 =
          (E.get_ssl_receive (available E c).2.engine (available E c).2.sslclient 1).1) ∧
      (0 < (E.get_ssl_receive (available E c).2.engine (available E c).2.sslclient 1).1 →
        ∀ d rest,
          (E.get_ssl_receive (available E c).2.engine (available E c).2.sslclient 1).2.1
            = d :: rest →
          (readByte E c).1 = ((d % 256 : Nat) : Int) ∧
            0 ≤ (readByte E c).1 ∧ (readByte E c).1 ≤ 255)) := by
  refine ⟨fun h => ?_, fun h hp => ?_, fun h hp => ⟨fun hr => ?_, fun hr d rest hd => ?_⟩⟩
  · unfold readByte
    simp only [read_unavailable E c _ 1 h]
    simp
  · unfold readByte
    simp only [read_peek_only E c _ 1 h (by decide) hp (Or.inl rfl)]
    simp only [Option.getD_some, Function.update_same]
    rw [if_neg (by decide)]
    have h1 := Int.emod_nonneg (available E c).2._peek (show (256 : Int) ≠ 0 by decide)
    have h2 := Int.emod_lt_of_pos (available E c).2._peek (show (0 : Int) < 256 by decide)
    omega
  · unfold readByte
    simp only [read_no_peek E c _ 1 h (by decide) hp, readEngine_err E _ _ 0 1 0 hr]
    simp [hr]
  · unfold readByte
    have hr0 : 0 ≤ (E.get_ssl_receive (available E c).2.engine (available E c).2.sslclient 1).1 :=
      le_of_lt hr
    simp only [read_no_peek E c _ 1 h (by decide) hp, readEngine_ok E _ _ 0 1 0 hr0,
      addInt32_zero]
    have hn : ¬ (E.get_ssl_receive (available E c).2.engine (available E c).2.sslclient 1).1
        < 0 := by omega
    simp only [hn, if_false, Option.getD_some, hd]
    have hst : store (fun _ => 255) 0 (d :: rest) 0 = d := by simp [store]
    rw [hst]
    refine ⟨rfl, ?_, ?_⟩
    · omega
    · omega

/-- C11 amended, at runs: with the bytes 1, 2, 3 unread `read()` returns 1; with
byte 65 buffered on an idle session it returns 65; on a disconnected client with
nothing buffered it returns -1. -/
theorem readByte_result_witness :
    (readByte streamEngine streamClient).1 = 1 ∧
      (readByte idleEngine peekedClient).1 = 65 ∧
      (readByte scenarioEngine pskClient).1 = -1 := by
  refine ⟨?_, ?_, ?_⟩
  · exact (((readByte_result streamEngine streamClient).2.2 (by decide) (by decide)).2
      (by decide) 1 [] (by decide)).1
  · exact ((readByte_result idleEngine peekedClient).2.1 (by decide) (by decide)).trans
      (by decide)
  · exact (readByte_result scenarioEngine pskClient).1 (by decide)

/-! The write path and teardown -/

/-- C12: `write(buf, size)` on a client that is not connected returns 0, makes
no engine call and leaves the client unchanged; on a connected client it returns
0 when the engine's send returns `r < 0`, and returns `r` with the connected
flag, descriptor and peek buffer unchanged when the send returns `r >= 0`. -/
theorem write_result (E : Engine ε) (c : Client ε) (buf : Option (Nat → Nat)) (size : Nat) :
    (c._connected = false → (write E c buf size).1 = 0 ∧ (write E c buf size).2 = c) ∧
    (c._connected = true → (E.send_ssl_data c.engine c.sslclient buf size).1 < 0 →
      (write E c buf size).1 = 0) ∧
    (c._connected = true → 0 ≤ (E.send_ssl_data c.engine c.sslclient buf size).1 →
      ((write E c buf size).1 : Int) = (E.send_ssl_data c.engine c.sslclient buf size).1 ∧
      (write E c buf size).2._connected = c._connected ∧
      (write E c buf size).2.sslclient = c.sslclient ∧
      (write E c buf size).2._peek = c._peek) := by
  refine ⟨fun h => ?_, fun h hr => ?_, fun h hr => ?_⟩
  · unfold write
    simp [h]
  · unfold write
    simp [h, hr]
  · unfold write
    have hr' : ¬ (E.send_ssl_data c.engine c.sslclient buf size).1 < 0 := not_lt.mpr hr
    simp only [h, Bool.not_true, Bool.false_eq_true, if_false, hr']
    exact ⟨Int.toNat_of_nonneg hr, trivial, trivial, trivial⟩

/-- C12, at runs: a disconnected client writes 0 bytes with no call made; a
connected client writes 3 bytes when the send returns 3, and 0 when it returns
-1. -/
theorem write_result_witness :
    ((write streamEngine { streamClient with _connected := false } none 3).1 = 0 ∧
        (write streamEngine { streamClient with _connected := false } none 3).2.trace =
          [EngineCall.ssl_init]) ∧
      (write refusingEngine wrappedClient none 3).1 = 0 ∧
      ((write streamEngine streamClient none 3).1 : Int) = 3 := by
  refine ⟨?_, ?_, ?_⟩
  · have h := (write_result streamEngine { streamClient with _connected := false } none 3).1
      (by decide)
    refine ⟨h.1, ?_⟩
    rw [h.2]
    decide
  · exact (write_result refusingEngine wrappedClient none 3).2.1 (by decide) (by decide)
  · exact (((write_result streamEngine streamClient none 3).2.2 (by decide) (by decide)).1).trans
      (by decide)

/-- C13 as stated fails: on a client marked connected with descriptor -1,
`stop()` resets nothing; with 10 bytes readable `available()` then returns 10
and `connected()` returns true. -/
theorem after_stop_counterexample :
    (available scenarioEngine (stop scenarioEngine staleClient)).1 = 10 ∧
      (connected scenarioEngine (stop scenarioEngine staleClient)).1 = true ∧
      ¬ (available scenarioEngine (stop scenarioEngine staleClient)).1 = 0 := by
  decide

/-- C13, amended: for a client whose descriptor is valid (`>= 0`) when `stop()`
is called, or which is already disconnected with an empty peek buffer, after
`stop()` `available()` returns 0, `connected()` returns false and `read()`
returns -1, none of them changing the client. -/
theorem after_stop (E : Engine ε) (c : Client ε)
    (h : 0 ≤ c.sslclient.socket ∨ (c._connected = false ∧ c._peek < 0)) :
    available E (stop E c) = (0, stop E c) ∧
      connected E (stop E c) = (false, stop E c) ∧
      (readByte E (stop E c)).1 = -1 ∧ (readByte E (stop E c)).2 = stop E c := by
  have hs : (stop E c)._connected = false ∧ (stop E c)._peek < 0 := by
    rcases h with h | ⟨h1, h2⟩
    · have := stop_valid E c h
      exact ⟨this.1, by rw [this.2.1]; decide⟩
    · by_cases hv : 0 ≤ c.sslclient.socket
      · have := stop_valid E c hv
        exact ⟨this.1, by rw [this.2.1]; decide⟩
      · have := stop_invalid E c (not_le.mp hv)
        exact ⟨this.1.trans h1, by rw [this.2.1]; exact h2⟩
  have hav : available E (stop E c) = (0, stop E c) := by
    rw [available_disconnected E _ hs.1, if_neg (not_le.mpr hs.2)]
  refine ⟨hav, connected_disconnected E _ hs.1, ?_, ?_⟩
  · unfold readByte
    simp only [read_unavailable E (stop E c) _ 1 (by rw [hav])]
    simp
  · unfold readByte
    simp only [read_unavailable E (stop E c) _ 1 (by rw [hav])]
    simp [hav]

/-- C13 amended, at a run: after `stop()` on a connected client with byte 65
buffered, `available()` is 0, `connected()` is false and `read()` is -1. -/
theorem after_stop_witness :
    (available scenarioEngine (stop scenarioEngine peekedClient)).1 = 0 ∧
      (connected scenarioEngine (stop scenarioEngine peekedClient)).1 = false ∧
      (readByte scenarioEngine (stop scenarioEngine peekedClient)).1 = -1 := by
  have h := after_stop scenarioEngine peekedClient (Or.inl (by decide))
  exact ⟨by rw [h.1], by rw [h.2.1], h.2.2.1⟩

theorem stop_invalid_trace (E : Engine ε) (c : Client ε) (h : c.sslclient.socket < 0) :
    (stop E c).trace =
      c.trace ++ [EngineCall.stop_ssl_socket c._CA_cert c._cert c._private_key] := by
  unfold stop
  have h' : ¬ c.sslclient.socket ≥ 0 := not_le.mpr h
  simp [h']

/-- C14: a second `stop()` leaves the members as the first one left them
(descriptor invalid, same connected flag, peek buffer, credentials, last-error
code and handshake timeout) and makes no transport-level close; every `stop()`
calls the engine teardown exactly once, with the configured CA certificate,
client certificate and private key. -/
theorem stop_idempotent (E : Engine ε) (c : Client ε) :
    (stop E c).sslclient.socket < 0 ∧
      (stop E (stop E c)).sslclient = (stop E c).sslclient ∧
      (stop E (stop E c))._connected = (stop E c)._connected ∧
      (stop E (stop E c))._peek = (stop E c)._peek ∧
      (stop E (stop E c))._lastError = (stop E c)._lastError ∧
      (stop E (stop E c))._CA_cert = (stop E c)._CA_cert ∧
      (stop E (stop E c))._cert = (stop E c)._cert ∧
      (stop E (stop E c))._private_key = (stop E c)._private_key ∧
      (stop E (stop E c))._pskIdent = (stop E c)._pskIdent ∧
      (stop E (stop E c))._psKey = (stop E c)._psKey ∧
      callsSince (stop E c) (stop E (stop E c)) =
        [EngineCall.stop_ssl_socket c._CA_cert c._cert c._private_key] ∧
      (callsSince c (stop E c)).filter EngineCall.isTeardown =
        [EngineCall.stop_ssl_socket c._CA_cert c._cert c._private_key] := by
  have hneg : (stop E c).sslclient.socket < 0 := by
    by_cases hv : 0 ≤ c.sslclient.socket
    · rw [(stop_valid E c hv).2.2]; decide
    · rw [(stop_invalid E c (not_le.mp hv)).2.2]; exact not_le.mp hv
  have h2 := stop_invalid E (stop E c) hneg
  have hf := stop_frame E (stop E c)
  have hf1 := stop_frame E c
  refine ⟨hneg, h2.2.2, h2.1, h2.2.1, hf.1, hf.2.1, hf.2.2.1, hf.2.2.2.1, hf.2.2.2.2.1,
    hf.2.2.2.2.2.1, ?_, ?_⟩
  · apply callsSince_append
    rw [stop_invalid_trace E (stop E c) hneg, hf1.2.1, hf1.2.2.1, hf1.2.2.2.1]
  · by_cases hv : c.sslclient.socket ≥ 0
    · rw [callsSince_append c (stop E c) [EngineCall.close c.sslclient.socket,
        EngineCall.stop_ssl_socket c._CA_cert c._cert c._private_key]
        (by unfold stop; simp [hv])]
      simp [List.filter_cons, EngineCall.isTeardown]
    · rw [callsSince_append c (stop E c)
        [EngineCall.stop_ssl_socket c._CA_cert c._cert c._private_key]
        (by unfold stop; simp [hv])]
      simp [List.filter_cons, EngineCall.isTeardown]

/-! What the operations other than connect preserve -/

theorem keeps_refl (c : Client ε) : Keeps c c := ⟨rfl, fun h => h⟩

theorem keeps_trans {c c1 c2 : Client ε} (h1 : Keeps c c1) (h2 : Keeps c1 c2) : Keeps c c2 :=
  ⟨h2.1.trans h1.1, fun h => h2.2 (h1.2 h)⟩

theorem keeps_of_eq {c c1 : Client ε} (he : c1._lastError = c._lastError)
    (hc : c1._connected = c._connected) (hs : c1.sslclient = c.sslclient) : Keeps c c1 :=
  ⟨he, fun h h1 => by rw [hs]; exact h (hc ▸ h1)⟩

theorem keeps_stop (E : Engine ε) (c : Client ε) : Keeps c (stop E c) := by
  refine ⟨(stop_frame E c).1, fun h h1 => ?_⟩
  by_cases hv : 0 ≤ c.sslclient.socket
  · rw [(stop_valid E c hv).1] at h1
    exact absurd h1 (by decide)
  · have hi := stop_invalid E c (not_le.mp hv)
    rw [hi.2.2]
    exact h (hi.1 ▸ h1)

theorem keeps_available (E : Engine ε) (c : Client ε) : Keeps c (available E c).2 := by
  by_cases hc : c._connected = true
  · by_cases hr : (E.data_to_read c.engine c.sslclient).1 < 0
    · rw [available_err E c hc hr]
      exact keeps_trans (keeps_of_eq rfl rfl rfl) (keeps_stop E _)
    · rw [available_ok E c hc (not_lt.mp hr)]
      exact keeps_of_eq rfl rfl rfl
  · rw [available_disconnected E c (by simpa using hc)]
    exact keeps_refl c

theorem keeps_readEngine (E : Engine ε) (c : Client ε) (b : Nat → Nat) (off size : Nat)
    (peeked : Int) : Keeps c (readEngine E c b off size peeked).2.2 := by
  by_cases hr : (E.get_ssl_receive c.engine c.sslclient size).1 < 0
  · rw [readEngine_err E c b off size peeked hr]
    exact keeps_trans (keeps_of_eq rfl rfl rfl) (keeps_stop E _)
  · rw [readEngine_ok E c b off size peeked (not_lt.mp hr)]
    exact keeps_of_eq rfl rfl rfl

theorem keeps_read (E : Engine ε) (c : Client ε) (buf : Option (Nat → Nat)) (size : Nat) :
    Keeps c (read E c buf size).2.2 := by
  have ha := keeps_available E c
  cases buf with
  | none => rw [read_null]; exact ha
  | some b =>
    by_cases h0 : 0 < (available E c).1
    · by_cases hz : size = 0
      · subst hz
        rw [read_zero E c b h0]; exact ha
      · by_cases hp : 0 ≤ (available E c).2._peek
        · by_cases hd : size = 1 ∨ (available E c).1 = 1
          · rw [read_peek_only E c b size h0 hz hp hd]
            exact keeps_trans ha (keeps_of_eq rfl rfl rfl)
          · rw [read_peek_more E c b size h0 hz hp (fun h => hd (Or.inl h))
              (fun h => hd (Or.inr h))]
            exact keeps_trans ha (keeps_trans (keeps_of_eq rfl rfl rfl)
              (keeps_readEngine E _ _ _ _ _))
        · rw [read_no_peek E c b size h0 hz (not_le.mp hp)]
          exact keeps_trans ha (keeps_readEngine E _ _ _ _ _)
    · rw [read_unavailable E c b size (not_lt.mp h0)]; exact ha

theorem readByte_state (E : Engine ε) (c : Client ε) :
    (readByte E c).2 = (read E c (some (fun _ => 255)) 1).2.2 := by
  unfold readByte
  simp only
  split_ifs <;> rfl

theorem keeps_readByte (E : Engine ε) (c : Client ε) : Keeps c (readByte E c).2 := by
  rw [readByte_state]
  exact keeps_read E c _ 1

theorem keeps_timedRead (E : Engine ε) (polls : Nat) :
    ∀ c : Client ε, Keeps c (timedRead E polls c).2 := by
  induction polls with
  | zero =>
    intro c
    unfold timedRead
    simp only
    split_ifs
    · exact keeps_readByte E c
    · exact keeps_readByte E c
  | succ n ih =>
    intro c
    unfold timedRead
    simp only
    split_ifs
    · exact keeps_readByte E c
    · exact keeps_trans (keeps_readByte E c) (ih _)

theorem keeps_peek (E : Engine ε) (polls : Nat) (c : Client ε) : Keeps c (peek E polls c).2 := by
  unfold peek
  split_ifs
  · exact keeps_refl c
  · exact keeps_trans (keeps_timedRead E polls c) (keeps_of_eq rfl rfl rfl)

theorem keeps_write (E : Engine ε) (c : Client ε) (buf : Option (Nat → Nat)) (size : Nat) :
    Keeps c (write E c buf size).2 := by
  unfold write
  simp only
  split_ifs
  · exact keeps_refl c
  · exact keeps_trans (keeps_of_eq rfl rfl rfl) (keeps_stop E _)
  · exact keeps_of_eq rfl rfl rfl

theorem keeps_connected (E : Engine ε) (c : Client ε) : Keeps c (connected E c).2 :=
  keeps_read E c _ 0

theorem keeps_load (c : Client ε) (dest : Option (List Nat)) (stream : List Nat) (size : Nat)
    (ok : Bool) (after : List Nat) :
    Keeps c (loadCACert c dest stream size ok after).2.1 ∧
      Keeps c (loadCertificate c dest stream size ok after).2.1 ∧
      Keeps c (loadPrivateKey c dest stream size ok after).2.1 := by
  refine ⟨?_, ?_, ?_⟩
  · unfold loadCACert
    simp only
    split
    · exact keeps_of_eq rfl rfl rfl
    · exact keeps_refl c
  · unfold loadCertificate
    simp only
    split
    · exact keeps_of_eq rfl rfl rfl
    · exact keeps_refl c
  · unfold loadPrivateKey
    simp only
    split
    · exact keeps_of_eq rfl rfl rfl
    · exact keeps_refl c

theorem keeps_step (E : Engine ε) (c : Client ε) (o : Op) (h : o.isConnect = false) :
    Keeps c (step E c o) := by
  cases o with
  | connect _ _ => exact absurd h (by simp [Op.isConnect])
  | connectCert _ _ _ _ _ => exact absurd h (by simp [Op.isConnect])
  | connectPSK _ _ _ _ => exact absurd h (by simp [Op.isConnect])
  | connectIP _ _ => exact absurd h (by simp [Op.isConnect])
  | connectIPCert _ _ _ _ _ => exact absurd h (by simp [Op.isConnect])
  | connectIPPSK _ _ _ _ => exact absurd h (by simp [Op.isConnect])
  | stop => exact keeps_stop E c
  | available => exact keeps_available E c
  | peek polls => exact keeps_peek E polls c
  | readByte => exact keeps_readByte E c
  | read buf size => exact keeps_read E c buf size
  | write buf size => exact keeps_write E c buf size
  | writeByte data => exact keeps_write E c _ 1
  | connected => exact keeps_connected E c
  | setCACert _ => exact keeps_of_eq rfl rfl rfl
  | setCertificate _ => exact keeps_of_eq rfl rfl rfl
  | setPrivateKey _ => exact keeps_of_eq rfl rfl rfl
  | setPreSharedKey _ _ => exact keeps_of_eq rfl rfl rfl
  | verify _ _ => exact keeps_of_eq rfl rfl rfl
  | lastError _ _ => exact keeps_refl c
  | setHandshakeTimeout _ => exact ⟨rfl, fun h0 h1 => h0 h1⟩
  | loadCACert dest stream size ok after => exact (keeps_load c dest stream size ok after).1
  | loadCertificate dest stream size ok after =>
    exact (keeps_load c dest stream size ok after).2.1
  | loadPrivateKey dest stream size ok after =>
    exact (keeps_load c dest stream size ok after).2.2

theorem keeps_run (E : Engine ε) (ops : List Op) :
    ∀ c : Client ε, (∀ o ∈ ops, o.isConnect = false) → Keeps c (run E c ops) := by
  induction ops with
  | nil => intro c _; exact keeps_refl c
  | cons o t ih =>
    intro c h
    have h1 := keeps_step E c o (h o (List.mem_cons_self o t))
    have h2 := ih (step E c o) (fun o1 ho1 => h o1 (List.mem_cons_of_mem o ho1))
    exact keeps_trans h1 h2

/-- C15: `available()`, `peek()`, `read()`, `read(buf, size)`, `write`,
`connected()`, `stop()`, `verify`, the credential setters and the assignment
leave the recorded last-error code unchanged, and so does every sequence of
operations without a connect; `lastError` returns the recorded code, so after a
connect whose handshake returned `r` and any such sequence it returns `r`. -/
theorem lastError_only_from_connect (E : Engine ε) (c other : Client ε)
    (mbedtls_strerror : Int → List Nat) (ops : List Op) (polls : Nat)
    (buf wbuf ebuf : Option (Nat → Nat)) (size wsize esize : Nat) (host : String) (port : Nat)
    (ip : IPAddress) (ca cert key ident psk fp domain_name : Option String)
    (hops : ∀ o ∈ ops, o.isConnect = false) :
    ((available E c).2._lastError = c._lastError ∧
      (peek E polls c).2._lastError = c._lastError ∧
      (readByte E c).2._lastError = c._lastError ∧
      (read E c buf size).2.2._lastError = c._lastError ∧
      (write E c wbuf wsize).2._lastError = c._lastError ∧
      (connected E c).2._lastError = c._lastError ∧
      (stop E c)._lastError = c._lastError ∧
      (verify E c fp domain_name).2._lastError = c._lastError ∧
      (setCACert c ca)._lastError = c._lastError ∧
      (setCertificate c cert)._lastError = c._lastError ∧
      (setPrivateKey c key)._lastError = c._lastError ∧
      (setPreSharedKey c ident psk)._lastError = c._lastError ∧
      (assign E c (some other))._lastError = c._lastError ∧
      (assign E c none)._lastError = c._lastError) ∧
    (run E c ops)._lastError = c._lastError ∧
    (lastError mbedtls_strerror c ebuf esize).1 = c._lastError ∧
    ∀ out ∈ [connect E c host port, connectCert E c host port ca cert key,
        connectPSK E c host port ident psk, connectIP E c ip port,
        connectIPCert E c ip port ca cert key, connectIPPSK E c ip port ident psk],
      ∀ r s, handshakeResults (callsSince c out.2) = [(r, s)] →
        (lastError mbedtls_strerror (run E out.2 ops) ebuf esize).1 = r := by
  have hle : ∀ c0 : Client ε, (lastError mbedtls_strerror c0 ebuf esize).1 = c0._lastError := by
    intro c0
    unfold lastError
    by_cases h0 : c0._lastError = 0
    · simp [h0]
    · simp [h0]
  refine ⟨⟨(keeps_available E c).1, (keeps_peek E polls c).1, (keeps_readByte E c).1,
    (keeps_read E c buf size).1, (keeps_write E c wbuf wsize).1, (keeps_connected E c).1,
    (stop_frame E c).1, rfl, rfl, rfl, rfl, rfl, ?_, ?_⟩, (keeps_run E ops c hops).1, hle c, ?_⟩
  · unfold assign
    exact (stop_frame E c).1
  · unfold assign
    exact (stop_frame E c).1
  · intro out hmem r s hrs
    obtain ⟨r', s', h1, h2, -⟩ := connect_outcome E c host port ip ca cert key ident psk out hmem
    rw [hrs] at h1
    simp only [List.cons.injEq, Prod.mk.injEq, and_true] at h1
    rw [hle, (keeps_run E ops out.2 hops).1, h2, h1.1]

/-- C15, at a run: a connect whose handshake fails with -1 records -1; after
`available()`, `read()` and `stop()`, `lastError` still returns -1. -/
theorem lastError_only_from_connect_witness :
    (lastError (fun _ => [101, 114, 114])
        (run refusingEngine (connect refusingEngine pskClient "10.0.0.5" 443).2
          [Op.available, Op.readByte, Op.stop]) none 0).1 = -1 :=
  (lastError_only_from_connect refusingEngine pskClient pskClient (fun _ => [101, 114, 114])
    [Op.available, Op.readByte, Op.stop] 0 none none none 0 0 0 "10.0.0.5" 443 ⟨10, 0, 0, 5⟩
    none none none none none none none (by simp [Op.isConnect])).2.2.2
    (connect refusingEngine pskClient "10.0.0.5" 443) (by simp) (-1) (-1) (by decide)

/-! Handshake timeout and credential loading -/

/-- C16 as stated fails: `setHandshakeTimeout(5)` sets the timeout to 5000, not
to 5. -/
theorem setHandshakeTimeout_counterexample :
    (setHandshakeTimeout wrappedClient 5).sslclient.handshake_timeout = 5000 ∧
      ¬ (setHandshakeTimeout wrappedClient 5).sslclient.handshake_timeout = 5 := by
  decide

/-- C16, amended: both constructors set the handshake timeout to 120000
milliseconds, and `setHandshakeTimeout(t)` sets it to `t * 1000` milliseconds
(the argument counts seconds), the product being taken modulo `2 ^ 32`. -/
theorem handshake_timeout_values (E : Engine ε) (e : ε) (sock peek0 lastError0 : Int)
    (c : Client ε) (t : Nat) :
    (construct E e peek0 lastError0).sslclient.handshake_timeout = 120000 ∧
      (constructSock E e sock peek0 lastError0).sslclient.handshake_timeout = 120000 ∧
      (setHandshakeTimeout c t).sslclient.handshake_timeout = (t * 1000) % 2 ^ 32 ∧
      (t * 1000 < 2 ^ 32 → (setHandshakeTimeout c t).sslclient.handshake_timeout = t * 1000) := by
  refine ⟨rfl, rfl, rfl, fun h => ?_⟩
  show (t * 1000) % 2 ^ 32 = t * 1000
  exact Nat.mod_eq_of_lt h

/-- C16 amended, at a run: `setHandshakeTimeout(30)` on a fresh client sets the
timeout to 30000 milliseconds. -/
theorem handshake_timeout_values_witness :
    (setHandshakeTimeout wrappedClient 30).sslclient.handshake_timeout = 30000 :=
  (handshake_timeout_values scenarioEngine () 5 (-1) 0 wrappedClient 30).2.2.2 (by decide)

/-- What `loadCACert` does: with a successful allocation and a source that
delivers exactly `size` bytes it returns true, keeps those bytes in the owned
buffer and installs a pointer to it as the CA certificate; with a source that
delivers fewer bytes, or a failed allocation, it returns false, leaves the
client as it was and leaves the static slot empty. -/
theorem loadCACert_result (c : Client ε) (dest : Option (List Nat)) (stream : List Nat)
    (size : Nat) (ok : Bool) (after : List Nat) :
    (stream.length = size →
      (loadCACert c dest stream size true after).1 = true ∧
      (loadCACert c dest stream size true after).2.1 =
        setCACert c (some (cString stream after)) ∧
      (loadCACert c dest stream size true after).2.2.dest = some stream) ∧
    (stream.length < size →
      (loadCACert c dest stream size ok after).1 = false ∧
      (loadCACert c dest stream size ok after).2.1 = c ∧
      (loadCACert c dest stream size ok after).2.2.dest = none) ∧
    ((loadCACert c dest stream size false after).1 = false ∧
      (loadCACert c dest stream size false after).2.1 = c ∧
      (loadCACert c dest stream size false after).2.2.dest = none) := by
  refine ⟨fun h => ?_, fun h => ?_, ?_⟩
  · have ht : stream.take size = stream := by
      rw [← h]; exact List.take_length stream
    simp [loadCACert, _streamLoad, ht, h]
  · have hl : (stream.take size).length = stream.length := by
      rw [List.length_take]; omega
    have hne : ¬ size = stream.length := by omega
    cases ok <;> simp [loadCACert, _streamLoad, hl, hne]
  · simp [loadCACert, _streamLoad]

/-- C17, at the failing input: a first `loadCACert` reads the 3 bytes "abc" and
installs them; a second one, declared 5 bytes long, gets only 2 bytes.  It
returns false and leaves the static slot empty, having freed the buffer of the
first load, and the client's CA certificate is still the content of that freed
buffer. -/
theorem loadCACert_leaves_freed_certificate :
    loadedOnce.1 = true ∧
      loadedOnce.2.1._CA_cert = some (bytesToString [97, 98, 99]) ∧
      loadedOnce.2.2.dest = some [97, 98, 99] ∧
      loadedTwice.1 = false ∧
      loadedTwice.2.2.dest = none ∧
      loadedTwice.2.2.freed = [[97, 98, 99], [120, 121]] ∧
      loadedTwice.2.1._CA_cert = some (bytesToString [97, 98, 99]) ∧
      ¬ loadedTwice.2.1._CA_cert = none := by
  decide

/-! The connected flag and the descriptor -/

/-- What a connect call leaves in the connected flag and the descriptor, in
terms of the answer of the engine to its handshake call. -/
theorem connect_descriptor (E : Engine ε) (c : Client ε) (host : String) (port : Nat)
    (ip : IPAddress) (ca cert key ident psk : Option String) :
    ∀ out ∈ [connect E c host port, connectCert E c host port ca cert key,
        connectPSK E c host port ident psk, connectIP E c ip port,
        connectIPCert E c ip port ca cert key, connectIPPSK E c ip port ident psk],
      ∃ (h : String) (a1 a2 a3 a4 a5 : Option String),
        handshakeResults (callsSince c out.2) =
          [((E.start_ssl_client c.engine c.sslclient h port a1 a2 a3 a4 a5).1,
            (E.start_ssl_client c.engine c.sslclient h port a1 a2 a3 a4 a5).2.1.socket)] ∧
        (0 ≤ (E.start_ssl_client c.engine c.sslclient h port a1 a2 a3 a4 a5).1 →
          out.2._connected = true ∧
          out.2.sslclient = (E.start_ssl_client c.engine c.sslclient h port a1 a2 a3 a4 a5).2.1) ∧
        ((E.start_ssl_client c.engine c.sslclient h port a1 a2 a3 a4 a5).1 < 0 →
          0 ≤ (E.start_ssl_client c.engine c.sslclient h port a1 a2 a3 a4 a5).2.1.socket →
          out.2._connected = false) ∧
        ((E.start_ssl_client c.engine c.sslclient h port a1 a2 a3 a4 a5).1 < 0 →
          (E.start_ssl_client c.engine c.sslclient h port a1 a2 a3 a4 a5).2.1.socket < 0 →
          out.2._connected = c._connected) := by
  have key : ∀ (h : String) (a1 a2 a3 a4 a5 : Option String) (out : Int × Client ε),
      out = (if (E.start_ssl_client c.engine c.sslclient h port a1 a2 a3 a4 a5).1 < 0 then
        (0, stop E { c with
          sslclient := (E.start_ssl_client c.engine c.sslclient h port a1 a2 a3 a4 a5).2.1
          engine := (E.start_ssl_client c.engine c.sslclient h port a1 a2 a3 a4 a5).2.2
          trace := c.trace ++
            [EngineCall.start_ssl_client h port a1 a2 a3 a4 a5
              (E.start_ssl_client c.engine c.sslclient h port a1 a2 a3 a4 a5).1
              (E.start_ssl_client c.engine c.sslclient h port a1 a2 a3 a4 a5).2.1.socket]
          _lastError := (E.start_ssl_client c.engine c.sslclient h port a1 a2 a3 a4 a5).1 })
      else
        (1, { c with
          sslclient := (E.start_ssl_client c.engine c.sslclient h port a1 a2 a3 a4 a5).2.1
          engine := (E.start_ssl_client c.engine c.sslclient h port a1 a2 a3 a4 a5).2.2
          trace := c.trace ++
            [EngineCall.start_ssl_client h port a1 a2 a3 a4 a5
              (E.start_ssl_client c.engine c.sslclient h port a1 a2 a3 a4 a5).1
              (E.start_ssl_client c.engine c.sslclient h port a1 a2 a3 a4 a5).2.1.socket]
          _lastError := (E.start_ssl_client c.engine c.sslclient h port a1 a2 a3 a4 a5).1
          _connected := true })) →
      ∃ (h : String) (a1 a2 a3 a4 a5 : Option String),
        handshakeResults (callsSince c out.2) =
          [((E.start_ssl_client c.engine c.sslclient h port a1 a2 a3 a4 a5).1,
            (E.start_ssl_client c.engine c.sslclient h port a1 a2 a3 a4 a5).2.1.socket)] ∧
        (0 ≤ (E.start_ssl_client c.engine c.sslclient h port a1 a2 a3 a4 a5).1 →
          out.2._connected = true ∧
          out.2.sslclient = (E.start_ssl_client c.engine c.sslclient h port a1 a2 a3 a4 a5).2.1) ∧
        ((E.start_ssl_client c.engine c.sslclient h port a1 a2 a3 a4 a5).1 < 0 →
          0 ≤ (E.start_ssl_client c.engine c.sslclient h port a1 a2 a3 a4 a5).2.1.socket →
          out.2._connected = false) ∧
        ((E.start_ssl_client c.engine c.sslclient h port a1 a2 a3 a4 a5).1 < 0 →
          (E.start_ssl_client c.engine c.sslclient h port a1 a2 a3 a4 a5).2.1.socket < 0 →
          out.2._connected = c._connected) := by
    intro h a1 a2 a3 a4 a5 out hout
    obtain ⟨⟨tl, htl, hno⟩, -, h3, -, h5, h6⟩ :=
      connect_core E c h port a1 a2 a3 a4 a5 _ out hout
    refine ⟨h, a1, a2, a3, a4, a5, ?_, ?_, fun hr hs => (h5 hr hs).1, fun hr hs => (h6 hr hs).1⟩
    · rw [htl]
      simp [handshakeResults, handshakeResults_none tl hno]
    · intro hr
      refine ⟨(h3 hr).2, ?_⟩
      rw [hout, if_neg (not_lt.mpr hr)]
  have hPSK : ∀ (h : String) (i k : Option String), _ := fun h i k =>
    key h none none none c._pskIdent c._psKey (connectPSK E c h port i k) rfl
  have hCert : ∀ (h : String) (a b d : Option String), _ := fun h a b d =>
    key h a b d none none (connectCert E c h port a b d) rfl
  intro out hmem
  simp only [List.mem_cons, List.mem_singleton, List.not_mem_nil, or_false] at hmem
  rcases hmem with rfl | rfl | rfl | rfl | rfl | rfl
  · unfold connect
    split
    · exact hPSK _ _ _
    · exact hCert _ _ _ _
  · exact hCert _ _ _ _
  · exact hPSK _ _ _
  · unfold connectIP connectIPPSK connectIPCert
    split
    · exact hPSK _ _ _
    · exact hCert _ _ _ _
  · exact hCert _ _ _ _
  · exact hPSK _ _ _

theorem step_connect_mem (E : Engine ε) (c : Client ε) (o : Op) (h : o.isConnect = true) :
    ∃ (host : String) (port : Nat) (ip : IPAddress) (ca cert key ident psk : Option String),
      ∃ out ∈ [connect E c host port, connectCert E c host port ca cert key,
        connectPSK E c host port ident psk, connectIP E c ip port,
        connectIPCert E c ip port ca cert key, connectIPPSK E c ip port ident psk],
        step E c o = out.2 := by
  cases o with
  | connect host port =>
    exact ⟨host, port, ⟨0, 0, 0, 0⟩, none, none, none, none, none, _, by simp, rfl⟩
  | connectCert host port ca cert key =>
    exact ⟨host, port, ⟨0, 0, 0, 0⟩, ca, cert, key, none, none, _,
      List.mem_cons_of_mem _ (List.mem_cons_self _ _), rfl⟩
  | connectPSK host port ident psk =>
    exact ⟨host, port, ⟨0, 0, 0, 0⟩, none, none, none, ident, psk, _,
      List.mem_cons_of_mem _ (List.mem_cons_of_mem _ (List.mem_cons_self _ _)), rfl⟩
  | connectIP ip port =>
    exact ⟨"", port, ip, none, none, none, none, none, _,
      List.mem_cons_of_mem _ (List.mem_cons_of_mem _ (List.mem_cons_of_mem _
        (List.mem_cons_self _ _))), rfl⟩
  | connectIPCert ip port ca cert key =>
    exact ⟨"", port, ip, ca, cert, key, none, none, _,
      List.mem_cons_of_mem _ (List.mem_cons_of_mem _ (List.mem_cons_of_mem _
        (List.mem_cons_of_mem _ (List.mem_cons_self _ _)))), rfl⟩
  | connectIPPSK ip port ident psk =>
    exact ⟨"", port, ip, none, none, none, ident, psk, _,
      List.mem_cons_of_mem _ (List.mem_cons_of_mem _ (List.mem_cons_of_mem _
        (List.mem_cons_of_mem _ (List.mem_cons_of_mem _ (List.mem_cons_self _ _))))), rfl⟩
  | stop => exact absurd h (by simp [Op.isConnect])
  | available => exact absurd h (by simp [Op.isConnect])
  | peek _ => exact absurd h (by simp [Op.isConnect])
  | readByte => exact absurd h (by simp [Op.isConnect])
  | read _ _ => exact absurd h (by simp [Op.isConnect])
  | write _ _ => exact absurd h (by simp [Op.isConnect])
  | writeByte _ => exact absurd h (by simp [Op.isConnect])
  | connected => exact absurd h (by simp [Op.isConnect])
  | setCACert _ => exact absurd h (by simp [Op.isConnect])
  | setCertificate _ => exact absurd h (by simp [Op.isConnect])
  | setPrivateKey _ => exact absurd h (by simp [Op.isConnect])
  | setPreSharedKey _ _ => exact absurd h (by simp [Op.isConnect])
  | verify _ _ => exact absurd h (by simp [Op.isConnect])
  | lastError _ _ => exact absurd h (by simp [Op.isConnect])
  | setHandshakeTimeout _ => exact absurd h (by simp [Op.isConnect])
  | loadCACert _ _ _ _ _ => exact absurd h (by simp [Op.isConnect])
  | loadCertificate _ _ _ _ _ => exact absurd h (by simp [Op.isConnect])
  | loadPrivateKey _ _ _ _ _ => exact absurd h (by simp [Op.isConnect])

theorem step_valid (E : Engine ε) (hE : HandshakeLeavesDescriptor E) (c : Client ε) (o : Op)
    (hinv : c._connected = true → 0 ≤ c.sslclient.socket)
    (hguard : c._connected = true →
      ∀ p ∈ handshakeResults (callsSince c (step E c o)), p.1 < 0 → 0 ≤ p.2) :
    (step E c o)._connected = true → 0 ≤ (step E c o).sslclient.socket := by
  by_cases ho : o.isConnect = true
  · obtain ⟨host, port, ip, ca, cert, key, ident, psk, out, hmem, hst⟩ :=
      step_connect_mem E c o ho
    obtain ⟨h, a1, a2, a3, a4, a5, hres, hok, hclosed, hkept⟩ :=
      connect_descriptor E c host port ip ca cert key ident psk out hmem
    rw [hst] at hguard ⊢
    intro hconn
    by_cases hr : 0 ≤ (E.start_ssl_client c.engine c.sslclient h port a1 a2 a3 a4 a5).1
    · rw [(hok hr).2]
      exact hE _ _ _ _ _ _ _ _ _ hr
    · have hr' := not_le.mp hr
      by_cases hs : 0 ≤ (E.start_ssl_client c.engine c.sslclient h port a1 a2 a3 a4 a5).2.1.socket
      · rw [hclosed hr' hs] at hconn
        exact absurd hconn (by decide)
      · exfalso
        have hc : c._connected = true := by rw [← hkept hr' (not_le.mp hs)]; exact hconn
        have := hguard hc _ (by rw [hres]; exact List.mem_singleton_self _) hr'
        exact hs this
  · exact (keeps_step E c o (by simpa using ho)).2 hinv

/-- C18 as stated fails: the refusing engine never returns success, so it meets
the handshake contract; a client built around descriptor 5 and then given one
`connect` is marked connected with descriptor -1. -/
theorem connected_descriptor_counterexample :
    HandshakeLeavesDescriptor refusingEngine ∧
      (run refusingEngine (constructSock refusingEngine () 5 (-1) 0)
        [Op.connect "10.0.0.5" 443])._connected = true ∧
      (run refusingEngine (constructSock refusingEngine () 5 (-1) 0)
        [Op.connect "10.0.0.5" 443]).sslclient.socket = -1 := by
  refine ⟨?_, by decide, by decide⟩
  intro e ctx host port a1 a2 a3 a4 a5 h
  exact absurd h (show ¬ (0 : Int) ≤ -1 by decide)

/-- C18, amended: under the engine contract that a successful handshake leaves
a valid descriptor, in every client state reached from a constructor by public
operations and assignments, where connect is called on a client that is marked
connected only if its handshake leaves a valid descriptor when it fails, a
client that is marked connected has a valid descriptor; and the
descriptor-wrapping constructor marks the client connected exactly when its
descriptor is `>= 0`. -/
theorem connected_descriptor_valid (E : Engine ε) (hE : HandshakeLeavesDescriptor E)
    (c : Client ε) (hr : Reachable E c) (hc : c._connected = true) :
    0 ≤ c.sslclient.socket ∧
      ∀ (e : ε) (sock peek0 lastError0 : Int),
        ((constructSock E e sock peek0 lastError0)._connected = true ↔ 0 ≤ sock) ∧
        (constructSock E e sock peek0 lastError0).sslclient.socket = sock := by
  have hall : ∀ c : Client ε, Reachable E c → c._connected = true → 0 ≤ c.sslclient.socket := by
    intro c hr
    induction hr with
    | construct e p l =>
      intro h
      exact absurd h (by simp [construct])
    | constructSock e sock p l =>
      intro h
      by_cases hs : sock ≥ 0
      · exact hs
      · simp [constructSock, hs] at h
    | step c o _ hguard ih => exact step_valid E hE c o ih hguard
    | assign c other _ _ _ ih2 =>
      intro h
      exact ih2 h
    | assignSelf c _ ih =>
      intro h
      exact (keeps_stop E c).2 ih h
  refine ⟨hall c hr hc, fun e sock p l => ⟨?_, rfl⟩⟩
  by_cases hs : sock ≥ 0
  · simp [constructSock, hs]
  · simp [constructSock, hs]

/-- C18 amended, at a run: a fresh client with a PSK pair, connected by the
scenario engine (handshake code 0, descriptor 7), is connected on descriptor
7. -/
theorem connected_descriptor_valid_witness :
    (step scenarioEngine pskClient (Op.connect "10.0.0.5" 443))._connected = true ∧
      0 ≤ (step scenarioEngine pskClient (Op.connect "10.0.0.5" 443)).sslclient.socket :=
  ⟨by decide,
    (connected_descriptor_valid scenarioEngine
      (fun _ _ _ _ _ _ _ _ _ _ => show (0 : Int) ≤ 7 by decide)
      (step scenarioEngine pskClient (Op.connect "10.0.0.5" 443))
      (Reachable.step pskClient (Op.connect "10.0.0.5" 443)
        (Reachable.step (construct scenarioEngine () (-1) 0)
          (Op.setPreSharedKey (some "id1") (some "deadbeef"))
          (Reachable.construct () (-1) 0) (fun h => absurd h (by decide)))
        (fun h => absurd h (by decide)))
      (by decide)).1⟩

/-! Bounds of `read` and the peek buffer across `available` -/

theorem readEngine_within (E : Engine ε)
    (hE : ∀ (e : ε) (ctx : sslclient_context) (len : Nat),
      (E.get_ssl_receive e ctx len).1 ≤ len ∧ (E.get_ssl_receive e ctx len).2.1.length ≤ len)
    (c : Client ε) (b : Nat → Nat) (off size : Nat) (peeked : Int)
    (hpk : peeked = 0 ∨ peeked = 1) :
    (readEngine E c b off size peeked).1 ≤ size + peeked ∧
      ∃ b1, (readEngine E c b off size peeked).2.1 = some b1 ∧
        ∀ i, off + size ≤ i → b1 i = b i := by
  have hlen := (hE c.engine c.sslclient size).2
  have hres := (hE c.engine c.sslclient size).1
  have hbuf : ∀ i, off + size ≤ i →
      store b off (E.get_ssl_receive c.engine c.sslclient size).2.1 i = b i := by
    intro i hi
    unfold store
    rw [if_neg]
    intro h
    omega
  by_cases hr : (E.get_ssl_receive c.engine c.sslclient size).1 < 0
  · rw [readEngine_err E c b off size peeked hr]
    refine ⟨?_, _, rfl, hbuf⟩
    rcases hpk with rfl | rfl
    · simp only [ne_eq, not_true_eq_false, if_false]
      omega
    · simp only [ne_eq, one_ne_zero, not_false_eq_true, if_true]
      omega
  · rw [readEngine_ok E c b off size peeked (not_lt.mp hr)]
    refine ⟨?_, _, rfl, hbuf⟩
    have hle := addInt32_le (E.get_ssl_receive c.engine c.sslclient size).1 peeked hpk
    simp only
    omega

/-- C19: if the engine's bulk read never returns a count above the length it
is asked for and never stores more bytes than that, `read(buf, size)` with a
non-null `buf` returns at most `size` and leaves every cell of `buf` from
position `size` on as it was. -/
theorem read_within_size (E : Engine ε) (c : Client ε) (b : Nat → Nat) (size : Nat)
    (hE : ∀ (e : ε) (ctx : sslclient_context) (len : Nat),
      (E.get_ssl_receive e ctx len).1 ≤ len ∧ (E.get_ssl_receive e ctx len).2.1.length ≤ len) :
    (read E c (some b) size).1 ≤ size ∧
      ∃ b1, (read E c (some b) size).2.1 = some b1 ∧ ∀ i, size ≤ i → b1 i = b i := by
  by_cases h0 : 0 < (available E c).1
  · by_cases hz : size = 0
    · subst hz
      rw [read_zero E c b h0]
      exact ⟨le_refl _, b, rfl, fun _ _ => rfl⟩
    · have h1 : 1 ≤ size := Nat.one_le_iff_ne_zero.mpr hz
      by_cases hp : 0 ≤ (available E c).2._peek
      · have hupd : ∀ i, size ≤ i →
            Function.update b 0 ((available E c).2._peek % 256).toNat i = b i := by
          intro i hi
          exact Function.update_noteq (by omega) _ _
        by_cases hd : size = 1 ∨ (available E c).1 = 1
        · rw [read_peek_only E c b size h0 hz hp hd]
          refine ⟨?_, _, rfl, hupd⟩
          simp only
          omega
        · rw [read_peek_more E c b size h0 hz hp (fun h => hd (Or.inl h))
            (fun h => hd (Or.inr h))]
          obtain ⟨hle, b1, hb1, hfr⟩ := readEngine_within E hE
            { (available E c).2 with _peek := -1 }
            (Function.update b 0 ((available E c).2._peek % 256).toNat) 1 (size - 1) 1
            (Or.inr rfl)
          refine ⟨?_, b1, hb1, fun i hi => ?_⟩
          · omega
          · rw [hfr i (by omega)]
            exact hupd i hi
      · rw [read_no_peek E c b size h0 hz (not_le.mp hp)]
        obtain ⟨hle, b1, hb1, hfr⟩ := readEngine_within E hE (available E c).2 b 0 size 0
          (Or.inl rfl)
        refine ⟨?_, b1, hb1, fun i hi => hfr i (by omega)⟩
        omega
  · rw [read_unavailable E c b size (not_lt.mp h0)]
    refine ⟨?_, b, rfl, fun _ _ => rfl⟩
    simp only
    omega

/-- C19, at a run: with the bytes 1, 2, 3 unread, `read(buf, 2)` returns 2,
stores 1 and 2 and leaves `buf[2]` as it was. -/
theorem read_within_size_witness :
    (read streamEngine streamClient (some (fun _ => 0)) 2).1 = 2 ∧
      (read streamEngine streamClient (some (fun _ => 0)) 2).1 ≤ 2 ∧
      ((read streamEngine streamClient (some (fun _ => 0)) 2).2.1.getD (fun _ => 9)) 1 = 2 ∧
      ((read streamEngine streamClient (some (fun _ => 0)) 2).2.1.getD (fun _ => 9)) 2 = 0 := by
  have h := read_within_size streamEngine streamClient (fun _ => 0) 2
    (fun e _ len =>
      ⟨show (((e.take len).length : Nat) : Int) ≤ (len : Int) by
        exact_mod_cast List.length_take_le len e, List.length_take_le len e⟩)
  obtain ⟨hle, b1, hb1, hfr⟩ := h
  refine ⟨by decide, hle, by decide, ?_⟩
  rw [hb1]
  exact hfr 2 (le_refl 2)

/-- C20: `available()` leaves the peek buffer as it was unless the client is
connected with a valid descriptor and the engine's byte count is negative; in
that case, when a byte was buffered, `available()` returns 1, the peek buffer is
empty afterwards and the next `available()` returns 0. -/
theorem available_peek_buffer (E : Engine ε) (c : Client ε) :
    (¬ (c._connected = true ∧ 0 ≤ c.sslclient.socket ∧
        (E.data_to_read c.engine c.sslclient).1 < 0) →
      (available E c).2._peek = c._peek) ∧
    (c._connected = true → 0 ≤ c.sslclient.socket →
      (E.data_to_read c.engine c.sslclient).1 < 0 → 0 ≤ c._peek →
      (available E c).1 = 1 ∧ (available E c).2._peek = -1 ∧
        (available E (available E c).2).1 = 0) := by
  refine ⟨fun h => ?_, fun hc hs hr hp => ?_⟩
  · by_cases hc : c._connected = true
    · by_cases hr : (E.data_to_read c.engine c.sslclient).1 < 0
      · have hs : c.sslclient.socket < 0 := by
          by_contra hs
          exact h ⟨hc, not_lt.mp hs, hr⟩
        rw [available_err E c hc hr]
        refine (stop_invalid E _ ?_).2.1
        exact hs
      · rw [available_ok E c hc (not_lt.mp hr)]
    · rw [available_disconnected E c (by simpa using hc)]
  · have hst := stop_valid E { c with
      engine := (E.data_to_read c.engine c.sslclient).2
      trace := c.trace ++ [EngineCall.data_to_read (E.data_to_read c.engine c.sslclient).1] } hs
    have hav := available_err E c hc hr
    have h1 : (available E c).2._connected = false := by rw [hav]; exact hst.1
    have h2 : (available E c).2._peek = -1 := by rw [hav]; exact hst.2.1
    refine ⟨by rw [hav]; simp [hp], h2, ?_⟩
    rw [available_disconnected E _ h1, h2]
    simp

/-- C20, at a run: byte 65 is buffered on a connected client on descriptor 5
and the byte count fails with -1; `available()` returns 1, the buffer is empty
afterwards and the next `available()` returns 0. -/
theorem available_peek_buffer_witness :
    (available refusingEngine peekedClient).1 = 1 ∧
      (available refusingEngine peekedClient).2._peek = -1 ∧
      (available refusingEngine (available refusingEngine peekedClient).2).1 = 0 :=
  (available_peek_buffer refusingEngine peekedClient).2 (by decide) (by decide) (by decide)
    (by decide)

end EthernetClientSecure
